import Mathlib

/-!
The reservation ledger of the benchmarker (`bench/isutrain/reservation_cache.go`).

A shallow embedding of `reservationCache` and of its operations `CanReserve`,
`Add`, `Commit`, `Cancel` and `Reservation`.

* Go `int` values (identifiers, car numbers, seat rows) are `Int`; only equality
  is ever computed on them.
* A Go `map[int]*ReservationCacheEntry` is an association list `GoMap`; the
  entries are never mutated after creation, so the pointers are held as values.
* The mutex is not modelled: every operation runs under the lock, so each call
  is one atomic step on the state.
* `errgroup.Group` is modelled by the list of the results of its goroutines.
-/

namespace Isutrain

/-! ## Errors -/

/-- The error values of the package, plus the errors of its collaborators. -/
inductive Error where
  | ErrCommitReservation
  | ErrCancelReservation
  | ErrCanNotReserve
  | other (msg : String)
deriving DecidableEq, Repr

/-! ## Time -/

/-- A `time.Time` instant, held as its normalised UTC civil reading. Two
normalised readings denote the same instant exactly when all fields agree. -/
structure Time where
  year : Nat
  month : Nat
  day : Nat
  hour : Nat
  minute : Nat
  second : Nat
  nsec : Nat
deriving DecidableEq, Repr

/-- The method `time.Time.Equal`: both values denote the same instant. -/
def Time.Equal (t u : Time) : Bool := decide (t = u)

/-- The calendar date (year, month, day) of an instant. -/
def Time.calendarDate (t : Time) : Nat × Nat × Nat := (t.year, t.month, t.day)

/-! ## Go maps keyed by `int` -/

/-- A Go `map[int]β`, as an association list. -/
abbrev GoMap (β : Type) := List (Int × β)

namespace GoMap

variable {β : Type}

/-- The lookup `v, ok := m[k]`. -/
def get : GoMap β → Int → Option β
  | [], _ => none
  | (k', v) :: rest, k => if k' = k then some v else get rest k

/-- The statement `delete(m, k)`. -/
def delete (m : GoMap β) (k : Int) : GoMap β :=
  m.filter (fun p => decide (p.1 ≠ k))

/-- The assignment `m[k] = v`. -/
def set (m : GoMap β) (k : Int) (v : β) : GoMap β :=
  (k, v) :: delete m k

/-- The values visited by `for _, v := range m`, in one of the possible orders. -/
def values (m : GoMap β) : List β := m.map Prod.snd

end GoMap

/-! ## Data model -/

/-- The type `User` (fields as the tests build it). -/
structure User where
  Email : String
  Password : String
deriving DecidableEq, Repr

/-- The type `TrainSeat`: a seat coordinate. -/
structure TrainSeat where
  Row : Int
  Column : String
deriving DecidableEq, Repr

/-- The type `TrainSeats`. -/
abbrev TrainSeats := List TrainSeat

/-- The type `ReserveRequest`, with the fields that the ledger reads. -/
structure ReserveRequest where
  Date : String
  Departure : String
  Arrival : String
  TrainClass : String
  TrainName : String
  CarNum : Int
  SeatClass : String
  Seats : TrainSeats
  Adult : Int
  Child : Int
deriving DecidableEq, Repr

/-- The type `ReservationCacheEntry`. The user pointer may be nil. -/
structure ReservationCacheEntry where
  User : Option User
  ID : Int
  Date : Time
  Departure : String
  Arrival : String
  TrainClass : String
  TrainName : String
  CarNum : Int
  SeatClass : String
  Seats : TrainSeats
  Adult : Int
  Child : Int
deriving DecidableEq, Repr

/-- The type `reservationCache` without its mutex. -/
structure reservationCache where
  reservations : GoMap ReservationCacheEntry
  commitedReservations : GoMap ReservationCacheEntry
  canceledReservations : GoMap ReservationCacheEntry
deriving DecidableEq, Repr

/-- The constructor `newReservationCache`. -/
def newReservationCache : reservationCache :=
  { reservations := [], commitedReservations := [], canceledReservations := [] }

/-! ## Collaborators that live outside `reservation_cache.go`

`util.ParseISO8601`, `isKudari` and `isKudariOverwrap` are called by the ledger
but defined elsewhere; the ledger operations take them as a parameter. -/

/-- The helper functions the ledger calls. -/
structure Env where
  ParseISO8601 : String → Except Error Time
  isKudari : String → String → Except Error Bool
  isKudariOverwrap : String → String → String → String → Except Error Bool

/-! ## `CanReserve` -/

/-- The closure `canReserveWithOverwrap` of `CanReserve`. -/
def canReserveWithOverwrap (env : Env) (req : ReserveRequest)
    (reservation : ReservationCacheEntry) : Bool × Option Error :=
  match env.isKudari req.Departure req.Arrival with
  | .error err => (false, some err)
  | .ok reqKudari =>
    match env.isKudari reservation.Departure reservation.Arrival with
    | .error err => (false, some err)
    | .ok resKudari =>
      if reqKudari != resKudari then (true, none)
      else if reqKudari then
        match env.isKudariOverwrap reservation.Departure reservation.Arrival
            req.Departure req.Arrival with
        | .error _ => (false, none)
        | .ok overwrap => if overwrap then (false, none) else (true, none)
      else
        match env.isKudariOverwrap reservation.Arrival reservation.Departure
            req.Arrival req.Departure with
        | .error _ => (false, none)
        | .ok overwrap => if overwrap then (false, none) else (true, none)

/-- The seat loops of the goroutine: some requested seat has the row and the
column of a seat of the record. -/
def seatsCollide (reqSeats resSeats : TrainSeats) : Bool :=
  reqSeats.any fun seat =>
    resSeats.any fun existSeat =>
      decide (seat.Row = existSeat.Row) && decide (seat.Column = existSeat.Column)

/-- The body of the goroutine that `CanReserve` starts for one record. -/
def checkReservation (env : Env) (req : ReserveRequest) (date : Time)
    (reservation : ReservationCacheEntry) : Option Error :=
  if !date.Equal reservation.Date then none
  else if decide (req.TrainClass ≠ reservation.TrainClass)
      || decide (req.TrainName ≠ reservation.TrainName) then none
  else
    match canReserveWithOverwrap env req reservation with
    | (ok, err) =>
      if ok || err.isSome then err
      else if decide (req.CarNum ≠ reservation.CarNum) then none
      else if seatsCollide req.Seats reservation.Seats then some Error.ErrCanNotReserve
      else none

/-- The `for ... range r.reservations` loop of `CanReserve`: the date is parsed
on every iteration; a parse failure leaves the function (`none`), otherwise one
more goroutine joins the group. -/
def launchChecks (env : Env) (req : ReserveRequest) :
    List ReservationCacheEntry → List (Option Error) → Option (List (Option Error))
  | [], eg => some eg
  | reservation :: rest, eg =>
    match env.ParseISO8601 req.Date with
    | .error _ => none
    | .ok date => launchChecks env req rest (eg ++ [checkReservation env req date reservation])

/-- The call `eg.Wait()`: a non-nil error of the group if there is one. Which
one is returned depends on scheduling; the first in launch order is taken. -/
def egWait : List (Option Error) → Option Error
  | [] => none
  | some err :: _ => some err
  | none :: rest => egWait rest

/-- The method `reservationCache.CanReserve`. -/
def CanReserve (env : Env) (r : reservationCache) (req : ReserveRequest) :
    Bool × Option Error :=
  match launchChecks env req (GoMap.values r.reservations) [] with
  | none => (false, none)
  | some eg =>
    match egWait eg with
    | some err =>
      if err = Error.ErrCanNotReserve then (false, none)
      else (false, none)
    | none => (true, none)

/-! ## `Reservation`, `Add`, `Commit`, `Cancel` -/

/-- The method `reservationCache.Reservation`. -/
def Reservation (r : reservationCache) (reservationID : Int) :
    Option ReservationCacheEntry × Bool :=
  match GoMap.get r.reservations reservationID with
  | none => (none, false)
  | some reservation => (some reservation, true)

/-- The method `reservationCache.Add`: the new state and the returned error. -/
def Add (env : Env) (r : reservationCache) (user : Option User) (req : ReserveRequest)
    (reservationID : Int) : reservationCache × Option Error :=
  match env.ParseISO8601 req.Date with
  | .error err => (r, some err)
  | .ok date =>
    let entry : ReservationCacheEntry :=
      { User := user
        ID := reservationID
        Date := date
        Departure := req.Departure
        Arrival := req.Arrival
        TrainClass := req.TrainClass
        TrainName := req.TrainName
        CarNum := req.CarNum
        SeatClass := req.SeatClass
        Seats := req.Seats
        Adult := req.Adult
        Child := req.Child }
    ({ r with reservations := GoMap.set r.reservations reservationID entry }, none)

/-- The method `reservationCache.Commit`: the new state and the returned error. -/
def Commit (r : reservationCache) (reservationID : Int) : reservationCache × Option Error :=
  match GoMap.get r.reservations reservationID with
  | none => (r, some Error.ErrCommitReservation)
  | some reservation =>
    ({ r with commitedReservations :=
        GoMap.set r.commitedReservations reservationID reservation }, none)

/-- The method `reservationCache.Cancel`: the new state and the returned error. -/
def Cancel (r : reservationCache) (reservationID : Int) : reservationCache × Option Error :=
  match GoMap.get r.reservations reservationID with
  | none => (r, some Error.ErrCancelReservation)
  | some reservation =>
    let r1 : reservationCache :=
      { r with canceledReservations :=
          GoMap.set r.canceledReservations reservationID reservation }
    match GoMap.get r1.commitedReservations reservationID with
    | some _ =>
      ({ r1 with commitedReservations := GoMap.delete r1.commitedReservations reservationID },
        none)
    | none => (r1, none)

/-! ## Sequences of calls -/

/-- A call that changes the ledger. -/
inductive Call where
  | add (user : Option User) (req : ReserveRequest) (reservationID : Int)
  | commit (reservationID : Int)
  | cancel (reservationID : Int)
deriving DecidableEq, Repr

/-- The state after one call; the returned error is dropped. -/
def step (env : Env) (r : reservationCache) : Call → reservationCache
  | .add user req reservationID => (Add env r user req reservationID).1
  | .commit reservationID => (Commit r reservationID).1
  | .cancel reservationID => (Cancel r reservationID).1

/-- The state after a sequence of calls on the empty ledger. -/
def run (env : Env) (calls : List Call) : reservationCache :=
  calls.foldl (step env) newReservationCache

/-- Every committed or canceled identifier is registered. -/
def Registered (r : reservationCache) : Prop :=
  ∀ id, GoMap.get r.commitedReservations id ≠ none
      ∨ GoMap.get r.canceledReservations id ≠ none →
    GoMap.get r.reservations id ≠ none

/-! ## The collaborators, modelled

The ledger's helper functions and the station table are defined outside
`reservation_cache.go`. The properties of `CanReserve` that depend on what the
helpers compute are stated over the models below. -/

/-- Modelled from the spec: `isKudari` is missing from the sources. "A fixed
station ordering defines direction": a trip is down-line when its departure
station comes before its arrival station in the station table `stationID`; a
station name that the table does not know is an error. -/
def isKudari (stationID : String → Option Nat) (departure arrival : String) :
    Except Error Bool :=
  match stationID departure, stationID arrival with
  | some departureNum, some arrivalNum => .ok (decide (departureNum < arrivalNum))
  | _, _ => .error (Error.other "invalid station name")

/-- Modelled from the spec: `isKudariOverwrap` is missing from the sources. The
arguments are two down-line-normalised ranges, the record's first. "Overlap
exists unless one range's arrival station precedes the other's departure station
or vice versa (touching endpoints do not overlap)". -/
def isKudariOverwrap (stationID : String → Option Nat)
    (reservedDeparture reservedArrival reqDeparture reqArrival : String) :
    Except Error Bool :=
  match stationID reservedDeparture, stationID reservedArrival,
      stationID reqDeparture, stationID reqArrival with
  | some resDep, some resArr, some reqDep, some reqArr =>
    .ok (!(decide (resArr ≤ reqDep) || decide (reqArr ≤ resDep)))
  | _, _, _, _ => .error (Error.other "invalid station name")

/-- The helpers of the ledger over a station table and a date parser. -/
def specEnv (stationID : String → Option Nat) (parse : String → Except Error Time) : Env :=
  { ParseISO8601 := parse
    isKudari := isKudari stationID
    isKudariOverwrap := isKudariOverwrap stationID }

/-- The value of a decimal digit. -/
def digit? (c : Char) : Option Nat :=
  if c.isDigit then some (c.toNat - 48) else none

/-- The value of a run of decimal digits. -/
def number? : List Char → Option Nat
  | [] => some 0
  | cs => cs.foldl (fun acc c => match acc, digit? c with
      | some n, some d => some (n * 10 + d)
      | _, _ => none) (some 0)

/-- The number of days of a month of the Gregorian calendar. -/
def daysIn (year month : Nat) : Nat :=
  if month = 2 then
    if (year % 4 = 0 ∧ year % 100 ≠ 0) ∨ year % 400 = 0 then 29 else 28
  else if month = 4 ∨ month = 6 ∨ month = 9 ∨ month = 11 then 30
  else 31

/-- Modelled from the spec: `util.ParseISO8601` is missing from the sources. It
reads an ISO 8601 timestamp and fails on a malformed string; the model reads the
UTC form `YYYY-MM-DDThh:mm:ssZ` and keeps the time of day, as the tests require
(a request one minute after the stored record has another date). -/
def ParseISO8601 (s : String) : Except Error Time :=
  match s.toList with
  | [y1, y2, y3, y4, c1, m1, m2, c2, d1, d2, c3, h1, h2, c4, n1, n2, c5, s1, s2, c6] =>
    if c1 = Char.ofNat 45 ∧ c2 = Char.ofNat 45 ∧ c3 = Char.ofNat 84 ∧ c4 = Char.ofNat 58
        ∧ c5 = Char.ofNat 58 ∧ c6 = Char.ofNat 90 then
      match number? [y1, y2, y3, y4], number? [m1, m2], number? [d1, d2],
          number? [h1, h2], number? [n1, n2], number? [s1, s2] with
      | some year, some month, some day, some hour, some minute, some second =>
        if 1 ≤ month ∧ month ≤ 12 ∧ 1 ≤ day ∧ day ≤ daysIn year month
            ∧ hour < 24 ∧ minute < 60 ∧ second < 60 then
          .ok { year := year, month := month, day := day, hour := hour,
                minute := minute, second := second, nsec := 0 }
        else .error (Error.other "parsing time: out of range")
      | _, _, _, _, _, _ => .error (Error.other "parsing time: not a number")
    else .error (Error.other "parsing time: bad separator")
  | _ => .error (Error.other "parsing time: bad length")

/-- The stations that the tests of the ledger name, numbered in the down-line
order that the expectations of the tests force: 東京 < 古岡 < 山田 < 荒川 < 鳴門
and 古岡 < 磯川. -/
def testStationID (name : String) : Option Nat :=
  if name = "東京" then some 1
  else if name = "古岡" then some 2
  else if name = "山田" then some 3
  else if name = "荒川" then some 4
  else if name = "鳴門" then some 5
  else if name = "磯川" then some 6
  else none

/-- The helpers over the stations of the tests. -/
def testEnv : Env := specEnv testStationID ParseISO8601

/-- The user of the tests. -/
def testUser : User := { Email := "hoge@example.com", Password := "hoge" }

/-- A request of the tests: train `test1`, car 1, seat (1, "column1"). -/
def testRequest (date departure arrival : String) : ReserveRequest :=
  { Date := date, Departure := departure, Arrival := arrival,
    TrainClass := "test1", TrainName := "test1", CarNum := 1, SeatClass := "",
    Seats := [{ Row := 1, Column := "column1" }], Adult := 0, Child := 0 }

/-- The instant 2020-01-01T10:01:00Z. -/
def testTime : Time :=
  { year := 2020, month := 1, day := 1, hour := 10, minute := 1, second := 0, nsec := 0 }

/-- The record that `Add` stores for a request whose date parses to `date`. -/
def entryOf (user : Option User) (req : ReserveRequest) (reservationID : Int) (date : Time) :
    ReservationCacheEntry :=
  { User := user, ID := reservationID, Date := date, Departure := req.Departure,
    Arrival := req.Arrival, TrainClass := req.TrainClass, TrainName := req.TrainName,
    CarNum := req.CarNum, SeatClass := req.SeatClass, Seats := req.Seats,
    Adult := req.Adult, Child := req.Child }

/-- The record of the tests: `testRequest` stored under the identifier 10 at
`testTime`. -/
def testEntry (departure arrival : String) : ReservationCacheEntry :=
  entryOf (some testUser) (testRequest "2020-01-01T10:01:00Z" departure arrival) 10 testTime

/-- The ledger of the tests: `testEntry` alone. -/
def testLedger (departure arrival : String) : reservationCache :=
  { newReservationCache with reservations := [(10, testEntry departure arrival)] }

end Isutrain

/-! # The error counters of a phase (`bench/internal/bencherror/bencherrors.go`)

* The counters are `uint64`: they are held as naturals and every operation on
  them is reduced modulo `2 ^ 64`.
* `Penalty` returns an `int64`: the conversion `int64(penalty)` reads the
  `uint64` value in two's complement.
* The constants of the package `config` are defined outside the file; they are
  the fields of `Config`.
* `extractCode` and the error codes are defined outside the file; an `error`
  value is held as what `AddError` reads of it.
-/

namespace Bencherror

/-- The conversion `int64(x)` of a `uint64` value. -/
def toInt64 (x : Nat) : Int :=
  if x % 2 ^ 64 < 2 ^ 63 then ((x % 2 ^ 64 : Nat) : Int)
  else ((x % 2 ^ 64 : Nat) : Int) - 2 ^ 64

/-- The constants of the package `config` that the benchmarker reads here. -/
structure Config where
  ApplicationPenaltyWeight : Nat
  TrivialPenaltyThreshold : Nat
  TrivialPenaltyWeight : Nat
  TrivialPenaltyPerCount : Nat
  AvailableDays : Int
  Language : String
deriving DecidableEq, Repr

/-- The error codes: the four that `AddError` names, and any other code. -/
inductive errCode where
  | errCritical
  | errApplication
  | errTimeout
  | errTemporary
  | unknown (name : String)
deriving DecidableEq, Repr

/-- An `error` value, by what `AddError` reads of it: the text `err.Error()`
and the result of `extractCode(err)`, the message and the code when `ok` is
true and nothing when it is false. -/
structure GoError where
  Error : String
  extractCode : Option (String × errCode)
deriving DecidableEq, Repr

/-- The type `BenchErrors` without its mutex. -/
structure BenchErrors where
  Msgs : List String
  InternalMsgs : List String
  criticalCnt : Nat
  applicationCnt : Nat
  timeoutCnt : Nat
  temporaryCnt : Nat
  isBenchmarkFinished : Bool
deriving DecidableEq, Repr

/-- The constructor `NewBenchErrors`. -/
def NewBenchErrors : BenchErrors :=
  { Msgs := [], InternalMsgs := [], criticalCnt := 0, applicationCnt := 0, timeoutCnt := 0,
    temporaryCnt := 0, isBenchmarkFinished := false }

/-- The method `BenchErrors.IsError`. -/
def IsError (errs : BenchErrors) : Bool :=
  decide (errs.Msgs.length > 0)

/-- The method `BenchErrors.IsFailure`. -/
def IsFailure (errs : BenchErrors) : Bool :=
  if errs.criticalCnt > 0 ∨ errs.applicationCnt ≥ 1000 then true else false

/-- The method `BenchErrors.Penalty`; `none` is the run-time panic of a division
by zero. -/
def Penalty (cfg : Config) (errs : BenchErrors) : Option Int :=
  let penalty := (cfg.ApplicationPenaltyWeight * errs.applicationCnt) % 2 ^ 64
  let trivialCnt := (errs.timeoutCnt + errs.temporaryCnt) % 2 ^ 64
  if trivialCnt > cfg.TrivialPenaltyThreshold then
    if cfg.TrivialPenaltyPerCount = 0 then none
    else
      let steps := (1 + (trivialCnt - cfg.TrivialPenaltyThreshold)
        / cfg.TrivialPenaltyPerCount) % 2 ^ 64
      some (toInt64 ((penalty + (cfg.TrivialPenaltyWeight * steps) % 2 ^ 64) % 2 ^ 64))
  else some (toInt64 penalty)

/-- The method `BenchErrors.AddError`: the new state and the returned error. -/
def AddError (errs : BenchErrors) (err : Option GoError) : BenchErrors × Option GoError :=
  match err with
  | none => (errs, none)
  | some e =>
    if errs.isBenchmarkFinished then (errs, none)
    else
      let errs1 : BenchErrors := { errs with InternalMsgs := errs.InternalMsgs ++ [e.Error] }
      match e.extractCode with
      | some (msg, code) =>
        match code with
        | .errCritical =>
          ({ errs1 with
              Msgs := errs1.Msgs ++ [msg ++ " (critical error)"]
              criticalCnt := (errs1.criticalCnt + 1) % 2 ^ 64 }, some e)
        | .errApplication =>
          ({ errs1 with
              Msgs := errs1.Msgs ++ [msg]
              applicationCnt := (errs1.applicationCnt + 1) % 2 ^ 64 }, some e)
        | .errTimeout =>
          ({ errs1 with
              Msgs := errs1.Msgs ++ [msg ++ " (タイムアウトしました)"]
              timeoutCnt := (errs1.timeoutCnt + 1) % 2 ^ 64 }, some e)
        | .errTemporary =>
          ({ errs1 with
              Msgs := errs1.Msgs ++ [msg ++ " (一時的なエラー)"]
              temporaryCnt := (errs1.temporaryCnt + 1) % 2 ^ 64 }, some e)
        | .unknown _ =>
          ({ errs1 with
              Msgs := errs1.Msgs ++ [msg ++ " 運営に確認をお願いいたします"]
              criticalCnt := (errs1.criticalCnt + 1) % 2 ^ 64 }, some e)
      | none => (errs1, some e)

/-- The method `BenchErrors.DumpCounters`. -/
def DumpCounters (errs : BenchErrors) : BenchErrors :=
  { errs with isBenchmarkFinished := true }

/-- A call that may change a counter set. -/
inductive ErrCall where
  | addError (err : Option GoError)
  | dumpCounters
deriving DecidableEq, Repr

/-- The counter set after one call. -/
def stepErrs (errs : BenchErrors) : ErrCall → BenchErrors
  | .addError err => (AddError errs err).1
  | .dumpCounters => DumpCounters errs

/-- The counter set after a sequence of calls. -/
def runErrs (errs : BenchErrors) (calls : List ErrCall) : BenchErrors :=
  calls.foldl stepErrs errs

/-- The penalty over the naturals, with the division rounded down: the
application count times its weight, plus, when the timeout and temporary counts
together exceed the threshold, the trivial weight times one more than the
quotient of the excess by the per-count divisor. -/
def penaltyRoundedDown (cfg : Config) (errs : BenchErrors) : Nat :=
  errs.applicationCnt * cfg.ApplicationPenaltyWeight
    + if errs.timeoutCnt + errs.temporaryCnt > cfg.TrivialPenaltyThreshold then
        cfg.TrivialPenaltyWeight
          * (1 + (errs.timeoutCnt + errs.temporaryCnt - cfg.TrivialPenaltyThreshold)
              / cfg.TrivialPenaltyPerCount)
      else 0

/-- The penalty as the specification words it, with the division rounded up. -/
def penaltyRoundedUp (cfg : Config) (errs : BenchErrors) : Nat :=
  errs.applicationCnt * cfg.ApplicationPenaltyWeight
    + if errs.timeoutCnt + errs.temporaryCnt > cfg.TrivialPenaltyThreshold then
        cfg.TrivialPenaltyWeight
          * (1 + (errs.timeoutCnt + errs.temporaryCnt - cfg.TrivialPenaltyThreshold
                + cfg.TrivialPenaltyPerCount - 1)
              / cfg.TrivialPenaltyPerCount)
      else 0

/-- An error carrying the message "request failed" and a code. -/
def testError (code : errCode) : GoError :=
  { Error := "request failed: status 500", extractCode := some ("request failed", code) }

/-- An error that carries no message and no code. -/
def plainError : GoError :=
  { Error := "connection reset", extractCode := none }

/-- A configuration for the examples: weights 5 and 100, threshold 1,
per-count divisor 2. -/
def testConfig : Config :=
  { ApplicationPenaltyWeight := 5, TrivialPenaltyThreshold := 1, TrivialPenaltyWeight := 100,
    TrivialPenaltyPerCount := 2, AvailableDays := 30, Language := "golang" }

/-- The counter set after two timeout errors. -/
def twoTimeouts : BenchErrors :=
  runErrs NewBenchErrors
    [ErrCall.addError (some (testError errCode.errTimeout)),
      ErrCall.addError (some (testError errCode.errTimeout))]

end Bencherror

/-! # The command `run` (`bench/cmd/bench/bench.go`) -/

namespace Bench

open Bencherror

/-- The type `BenchResult`; `Score` is an `int64`. -/
structure BenchResult where
  Pass : Bool
  Score : Int
  Messages : List String
  AvailableDays : Int
  Language : String
deriving DecidableEq, Repr

/-- The loop of `uniqueMsgs`: `dedup` holds the keys of the map, `uniqMsgs` the
slice built so far. -/
def uniqueMsgsLoop : List String → List String → List String → List String
  | [], _, uniqMsgs => uniqMsgs
  | msg :: rest, dedup, uniqMsgs =>
    if msg ∈ dedup then uniqueMsgsLoop rest dedup uniqMsgs
    else uniqueMsgsLoop rest (msg :: dedup) (uniqMsgs ++ [msg])

/-- The function `uniqueMsgs`. -/
def uniqueMsgs (msgs : List String) : List String :=
  uniqueMsgsLoop msgs [] []

/-- The list of the first occurrences of the elements of a list, in order. -/
def firstOccurrences : List String → List String
  | [] => []
  | msg :: rest => msg :: (firstOccurrences rest).filter (fun m => decide (m ≠ msg))

/-- The function `dumpFailedResult`: the result it prints. `json.Marshal` does
not fail on a `BenchResult`. -/
def dumpFailedResult (cfg : Config) (messages : List String) : BenchResult :=
  { Pass := false, Score := 0, Messages := messages, AvailableDays := cfg.AvailableDays,
    Language := cfg.Language }

/-- The subtraction of two `int64` values. -/
def subInt64 (a b : Int) : Int :=
  toInt64 ((a - b) % 2 ^ 64).toNat

/-- What the collaborators of the action of `run` do in one execution. Each
counter set is given in the state in which the action reads it; the counters of
the benchmark phase are frozen by `DumpCounters` when `benchmarker.run` ends. -/
structure ActionInputs where
  loggerErr : Bool
  assetsErr : Bool
  initClientErr : Bool
  testClientErr : Bool
  paymentClientErr : Bool
  Debug : Bool
  mockRegisterErr : Option String
  paymentInitializeErr : Bool
  InitializeErrs : BenchErrors
  PreTestErrs : BenchErrors
  newBgTesterErr : Bool
  BenchmarkErrs : BenchErrors
  FinalCheckErrs : BenchErrors
  finalEndpointCount : Int
  finalScore : Int
deriving DecidableEq, Repr

/-- What the action of `run` does: the results written to the standard output
and whether it returns an exit error. -/
structure ActionOutput where
  stdout : List BenchResult
  exitError : Bool
deriving DecidableEq, Repr

/-- The field `Action` of the command `run`; `none` is a run-time panic. -/
def runAction (cfg : Config) (w : ActionInputs) : Option ActionOutput :=
  if w.loggerErr then some { stdout := [dumpFailedResult cfg []], exitError := true }
  else if w.assetsErr then some { stdout := [dumpFailedResult cfg []], exitError := true }
  else if w.initClientErr then some { stdout := [dumpFailedResult cfg []], exitError := true }
  else if w.testClientErr then some { stdout := [dumpFailedResult cfg []], exitError := true }
  else if w.paymentClientErr then some { stdout := [dumpFailedResult cfg []], exitError := true }
  else
    match (if w.Debug then w.mockRegisterErr else none) with
    | some text => some { stdout := [dumpFailedResult cfg [text]], exitError := true }
    | none =>
      if w.paymentInitializeErr then
        some { stdout := [dumpFailedResult cfg w.InitializeErrs.Msgs], exitError := false }
      else if IsError w.InitializeErrs then
        some { stdout := [dumpFailedResult cfg w.InitializeErrs.Msgs], exitError := false }
      else if IsError w.PreTestErrs then
        some { stdout := [dumpFailedResult cfg w.PreTestErrs.Msgs], exitError := false }
      else if w.newBgTesterErr then
        some { stdout := [dumpFailedResult cfg (uniqueMsgs w.BenchmarkErrs.Msgs)],
               exitError := false }
      else if IsFailure w.BenchmarkErrs then
        some { stdout := [dumpFailedResult cfg (uniqueMsgs w.BenchmarkErrs.Msgs)],
               exitError := false }
      else if IsFailure w.FinalCheckErrs then
        some { stdout := [dumpFailedResult cfg
                 (uniqueMsgs w.BenchmarkErrs.Msgs ++ w.FinalCheckErrs.Msgs)],
               exitError := false }
      else
        let scoreMsgs := ["エンドポイント成功回数: " ++ toString w.finalEndpointCount]
        let score := w.finalScore
        let scoreMsgs := scoreMsgs ++ ["スコア: " ++ toString score]
        match Penalty cfg w.BenchmarkErrs with
        | none => none
        | some penalty =>
          let score := subInt64 score penalty
          let scoreMsgs := scoreMsgs ++ ["ペナルティ: " ++ toString penalty]
          some { stdout := [{ Pass := true, Score := score,
                              Messages := uniqueMsgs w.BenchmarkErrs.Msgs ++ scoreMsgs,
                              AvailableDays := cfg.AvailableDays, Language := cfg.Language }],
                 exitError := false }

/-- An execution in which every collaborator succeeds and no phase records an
error; the raw score is 1000. -/
def cleanInputs : ActionInputs :=
  { loggerErr := false, assetsErr := false, initClientErr := false, testClientErr := false,
    paymentClientErr := false, Debug := false, mockRegisterErr := none,
    paymentInitializeErr := false, InitializeErrs := NewBenchErrors,
    PreTestErrs := NewBenchErrors, newBgTesterErr := false,
    BenchmarkErrs := DumpCounters NewBenchErrors, FinalCheckErrs := NewBenchErrors,
    finalEndpointCount := 10, finalScore := 1000 }

/-- The setup of the action succeeds: the logger, the assets, the three
clients, the mock registration in debug mode, the initialisation of the payment
service and the creation of the background tester. -/
def SetupSucceeds (w : ActionInputs) : Prop :=
  w.loggerErr = false ∧ w.assetsErr = false ∧ w.initClientErr = false
    ∧ w.testClientErr = false ∧ w.paymentClientErr = false
    ∧ (w.Debug = true → w.mockRegisterErr = none)
    ∧ w.paymentInitializeErr = false ∧ w.newBgTesterErr = false

/-- An execution in which the final check records one application error and
nothing else goes wrong. -/
def finalCheckApplicationError : ActionInputs :=
  { cleanInputs with
    FinalCheckErrs := (AddError NewBenchErrors (some (testError errCode.errApplication))).1 }

/-- An execution in which the pretest records one application error. -/
def pretestApplicationError : ActionInputs :=
  { cleanInputs with
    PreTestErrs := (AddError NewBenchErrors (some (testError errCode.errApplication))).1 }

end Bench

/-! # The price of a record (`ReservationCacheEntry.Amount`) -/

namespace Isutrain

/-- The value of a Go `int` (64 bits) expression: the exact result read in two's
complement. -/
def wrapInt (x : Int) : Int :=
  Bencherror.toInt64 (x % 2 ^ 64).toNat

/-- The method `ReservationCacheEntry.Amount`: the amount and the returned
error. `isutraindb.GetFare` computes in floating point over fare tables that
are defined elsewhere; it is a parameter. The division of two Go integers
truncates toward zero. -/
def Amount (GetFare : Int → Time → String → String → String → String → Except Error Int)
    (r : ReservationCacheEntry) : Int × Option Error :=
  match GetFare r.ID r.Date r.Departure r.Arrival r.TrainClass r.SeatClass with
  | .error err => (-1, some err)
  | .ok fare =>
    let adultFare := wrapInt (fare * r.Adult)
    let childFare := Int.tdiv (wrapInt (fare * r.Child)) 2
    (wrapInt (adultFare + childFare), none)

/-- A fare function for the examples: every trip costs 4321. -/
def testGetFare : Int → Time → String → String → String → String → Except Error Int :=
  fun _ _ _ _ _ _ => .ok 4321

/-- The record of the tests for one adult and two children. -/
def familyEntry : ReservationCacheEntry :=
  { testEntry "古岡" "荒川" with Adult := 1, Child := 2 }

end Isutrain

/-! # The race-condition scenario (`bench/scenario/attack.go`) -/

namespace Scenario

open Bencherror

/-- The counter `successCount` of `AttackReserveRaceCondition` after
`wg.Wait()`: ten goroutines call `Reserve`, and each one whose call returns no
error adds one to the counter; `reserveFails i` tells whether the call of the
goroutine `i` returns an error. -/
def reserveSuccessCount (reserveFails : Nat → Bool) : Nat :=
  (List.range 10).foldl
    (fun successCount i => if reserveFails i then successCount
      else (successCount + 1) % 2 ^ 64) 0

/-- The end of `AttackReserveRaceCondition`, from the ten concurrent calls of
`Reserve` on: the new state of `bencherror.BenchmarkErrs` and the returned
error. The constructors `NewSimpleApplicationError` and `NewSimpleCriticalError`
of the package `bencherror` are defined elsewhere; they are parameters. -/
def raceConditionVerdict (NewSimpleApplicationError NewSimpleCriticalError : String → GoError)
    (BenchmarkErrs : BenchErrors) (reserveFails : Nat → Bool) : BenchErrors × Option GoError :=
  let successCount := reserveSuccessCount reserveFails
  if successCount = 0 then
    AddError BenchmarkErrs (some (NewSimpleApplicationError "予約できませんでした"))
  else if successCount > 1 then
    AddError BenchmarkErrs (some (NewSimpleCriticalError "多重発券されました"))
  else (BenchmarkErrs, none)

/-- Modelled from the spec: `bencherror.NewSimpleApplicationError` is missing
from the sources; it builds an error of the Application class that carries the
message. -/
def NewSimpleApplicationError (msg : String) : GoError :=
  { Error := msg, extractCode := some (msg, errCode.errApplication) }

/-- Modelled from the spec: `bencherror.NewSimpleCriticalError` is missing from
the sources; it builds an error of the Critical class that carries the
message. -/
def NewSimpleCriticalError (msg : String) : GoError :=
  { Error := msg, extractCode := some (msg, errCode.errCritical) }

end Scenario

/-! # The worker (`bench/cmd/benchworker/bench-worker.go`) -/

namespace Benchworker

/-- The constant `StatusSuccess`. -/
def StatusSuccess : String := "done"

/-- The constant `StatusFailed`. -/
def StatusFailed : String := "aborted"

/-- The constant `StatusTimeout`. -/
def StatusTimeout : String := "aborted"

/-- The type `BenchResult` of the worker, with the fields that `execBench`
reads. -/
structure BenchResult where
  Pass : Bool
  Score : Int
  Messages : List String
deriving DecidableEq, Repr

/-- The type `Result`, with the fields that `execBench` fills. -/
structure Result where
  ID : Int
  Stdout : String
  Stderr : String
  Reason : String
  IsPassed : Bool
  Score : Int
  Status : String
deriving DecidableEq, Repr

/-- The function `joinN`; `none` is the run-time panic of the slice expression
`messages[:n]` for a negative `n`. -/
def joinN (messages : List String) (n : Int) : Option String :=
  if (messages.length : Int) > n then
    if n < 0 then none
    else some (String.intercalate ",\n" (messages.take n.toNat))
  else some (String.intercalate ",\n" messages)

/-- How the `select` of `execBench` ends: `cmd.Run()` returned, with or without
an error, or the context was done first. -/
inductive ChildOutcome where
  | exited (failed : Bool)
  | timedOut
deriving DecidableEq, Repr

/-- One run of the child process as `execBench` sees it: how it ended, what it
wrote, and what `json.Unmarshal(stdout.Bytes(), &result)` makes of the output:
an error, or the pointer `result`, which is nil for the JSON value `null`. -/
structure ChildRun where
  outcome : ChildOutcome
  stdout : String
  stderr : String
  unmarshal : Except String (Option BenchResult)
deriving Repr

/-- What a call of `execBench` does. -/
inductive ExecOutcome where
  | panic
  | error (text : String)
  | result (r : Result)
deriving DecidableEq, Repr

/-- The function `execBench`. `targetServerErr` is the error of
`getTargetServer`, if any; `messageLimit` is the flag of the worker. -/
def execBench (jobID : Int) (targetServerErr : Option String) (messageLimit : Int)
    (run : ChildRun) : ExecOutcome :=
  match targetServerErr with
  | some text => .error text
  | none =>
    let status :=
      match run.outcome with
      | .exited failed => if failed then StatusFailed else StatusSuccess
      | .timedOut => StatusTimeout
    match run.unmarshal with
    | .error _ =>
      .result { ID := jobID, Stdout := run.stdout, Stderr := run.stderr,
                Reason := "ベンチ結果の取得に失敗しました. 運営に報告してください",
                IsPassed := false, Score := -1, Status := StatusFailed }
    | .ok none => .panic
    | .ok (some result) =>
      match joinN result.Messages messageLimit with
      | none => .panic
      | some reason =>
        .result { ID := jobID, Stdout := run.stdout, Stderr := run.stderr,
                  Reason := reason, IsPassed := result.Pass, Score := result.Score,
                  Status := status }

/-- The child exits with status 0 after writing the JSON value `null`. -/
def nullOutput : ChildRun :=
  { outcome := .exited false, stdout := "null", stderr := "", unmarshal := .ok none }

end Benchworker

/-! # The load scheduler (`bench/cmd/bench/benchmarker.go`) -/

namespace Bench

open Bencherror

/-- A `semaphore.Weighted` on which nobody waits: its size and the weight that
is held. -/
structure Weighted where
  size : Nat
  cur : Nat
deriving DecidableEq, Repr

/-- The method `TryAcquire`: the weight is taken when it is free. -/
def Weighted.TryAcquire (s : Weighted) (n : Nat) : Weighted × Bool :=
  if s.cur + n ≤ s.size then ({ s with cur := s.cur + n }, true) else (s, false)

/-- The method `Release`; `none` is its panic when more is released than is
held. -/
def Weighted.Release (s : Weighted) (n : Nat) : Option Weighted :=
  if s.cur < n then none else some { s with cur := s.cur - n }

/-- The scheduler and its load units: the semaphore of the `benchmarker`, the
number of load units in flight (started by `go b.load(ctx)` and not yet at their
deferred `Release`), and whether `run` is still in its loop. -/
structure benchmarker where
  sem : Weighted
  inFlight : Nat
  looping : Bool
deriving DecidableEq, Repr

/-- The constructor `newBenchmarker`, before `run` is called; `month` is
`config.ReservationEndDate.Month()`. -/
def newBenchmarker (month : Nat) : benchmarker :=
  { sem := { size := month, cur := 0 }, inFlight := 0, looping := true }

/-- What can happen while the scheduler runs: one iteration of the loop of
`run`, which sees whether the context is done and whether the benchmark has
failed, or the end of one load unit. -/
inductive SchedulerEvent where
  | iterate (ctxDone isFailure : Bool)
  | loadDone
deriving DecidableEq, Repr

/-- One event; `none` is a panic. An iteration leaves the loop when the context
is done or the benchmark has failed, and otherwise starts a load unit when
`TryAcquire(1)` succeeds. The end of a load unit runs its deferred `Release(1)`;
with no load unit in flight nothing ends. -/
def schedulerStep (b : benchmarker) : SchedulerEvent → Option benchmarker
  | .iterate ctxDone isFailure =>
    if !b.looping then some b
    else if ctxDone then some { b with looping := false }
    else if isFailure then some { b with looping := false }
    else
      match b.sem.TryAcquire 1 with
      | (sem, true) => some { b with sem := sem, inFlight := b.inFlight + 1 }
      | (_, false) => some b
  | .loadDone =>
    if b.inFlight = 0 then some b
    else
      match b.sem.Release 1 with
      | none => none
      | some sem => some { b with sem := sem, inFlight := b.inFlight - 1 }

/-- A sequence of events from a state of the scheduler. -/
def schedulerRun : benchmarker → List SchedulerEvent → Option benchmarker
  | b, [] => some b
  | b, event :: rest =>
    match schedulerStep b event with
    | none => none
    | some b1 => schedulerRun b1 rest

/-- An execution in which the pretest records the same application error
twice. -/
def pretestDuplicateErrors : ActionInputs :=
  { cleanInputs with
    PreTestErrs := runErrs NewBenchErrors
      [ErrCall.addError (some (testError errCode.errApplication)),
        ErrCall.addError (some (testError errCode.errApplication))] }

/-- An execution in which the benchmark records the same critical error
twice. -/
def benchmarkDuplicateErrors : ActionInputs :=
  { cleanInputs with
    BenchmarkErrs := runErrs NewBenchErrors
      [ErrCall.addError (some (testError errCode.errCritical)),
        ErrCall.addError (some (testError errCode.errCritical)), ErrCall.dumpCounters] }

end Bench

namespace Isutrain

/-- The ledger of the tests is what `Add` makes of the empty ledger. -/
theorem testLedger_eq_Add (departure arrival : String) :
    Add testEnv newReservationCache (some testUser)
        (testRequest "2020-01-01T10:01:00Z" departure arrival) 10
      = (testLedger departure arrival, none) := rfl

/-! ## Lemmas on maps -/

namespace GoMap

variable {β : Type}

theorem get_delete_same (m : GoMap β) (k : Int) : get (delete m k) k = none := by
  induction m with
  | nil => rfl
  | cons p t ih =>
    obtain ⟨k1, v⟩ := p
    by_cases h : k1 = k
    · simpa [delete, List.filter_cons, h] using ih
    · simpa [delete, List.filter_cons, h, get] using ih

theorem get_delete_other (m : GoMap β) {k j : Int} (h : j ≠ k) :
    get (delete m k) j = get m j := by
  induction m with
  | nil => rfl
  | cons p t ih =>
    obtain ⟨k1, v⟩ := p
    by_cases h1 : k1 = k
    · have h2 : k1 ≠ j := fun e => h (e.symm.trans h1)
      simpa [delete, List.filter_cons, h1, get, h2, h1 ▸ h2] using ih
    · by_cases h2 : k1 = j
      · subst h2
        simp [delete, List.filter_cons, h1, get]
      · simpa [delete, List.filter_cons, h1, get, h2] using ih

theorem get_set_same (m : GoMap β) (k : Int) (v : β) : get (set m k v) k = some v := by
  simp [set, get]

theorem get_set_other (m : GoMap β) {k j : Int} (v : β) (h : j ≠ k) :
    get (set m k v) j = get m j := by
  have h1 : k ≠ j := fun e => h e.symm
  simp [set, get, h1, get_delete_other m h]

end GoMap

/-! ## Lemmas on `CanReserve` -/

theorem launchChecks_of_parse {env : Env} {req : ReserveRequest} {date : Time}
    (hparse : env.ParseISO8601 req.Date = .ok date) (l : List ReservationCacheEntry)
    (eg : List (Option Error)) :
    launchChecks env req l eg = some (eg ++ l.map (checkReservation env req date)) := by
  induction l generalizing eg with
  | nil => simp [launchChecks]
  | cons a t ih => simp [launchChecks, hparse, ih]

theorem launchChecks_of_parse_error {env : Env} {req : ReserveRequest} {err : Error}
    (hparse : env.ParseISO8601 req.Date = .error err) (a : ReservationCacheEntry)
    (t : List ReservationCacheEntry) (eg : List (Option Error)) :
    launchChecks env req (a :: t) eg = none := by
  simp [launchChecks, hparse]

theorem egWait_eq_none_iff (l : List (Option Error)) :
    egWait l = none ↔ ∀ x ∈ l, x = none := by
  induction l with
  | nil => simp [egWait]
  | cons a t ih =>
    cases a with
    | none => simp [egWait, ih]
    | some e => simp [egWait]

/-- The error result of `CanReserve` is always nil. -/
theorem CanReserve_snd (env : Env) (r : reservationCache) (req : ReserveRequest) :
    (CanReserve env r req).2 = none := by
  unfold CanReserve
  split
  · rfl
  · split
    · split <;> rfl
    · rfl

/-- With a date that parses, `CanReserve` admits the request exactly when no
goroutine reports an error. -/
theorem CanReserve_of_parse {env : Env} {req : ReserveRequest} {date : Time}
    (hparse : env.ParseISO8601 req.Date = .ok date) (r : reservationCache) :
    CanReserve env r req
      = ((GoMap.values r.reservations).all
          (fun e => (checkReservation env req date e).isNone), none) := by
  unfold CanReserve
  rw [launchChecks_of_parse hparse]
  simp only [List.nil_append]
  cases hw : egWait ((GoMap.values r.reservations).map (checkReservation env req date)) with
  | none =>
    rw [egWait_eq_none_iff] at hw
    have : (GoMap.values r.reservations).all
        (fun e => (checkReservation env req date e).isNone) = true := by
      rw [List.all_eq_true]
      intro e he
      simp [hw _ (List.mem_map_of_mem _ he)]
    simp [this]
  | some err =>
    have hne : ¬ (∀ x ∈ (GoMap.values r.reservations).map (checkReservation env req date),
        x = none) := by
      rw [← egWait_eq_none_iff, hw]; simp
    have : (GoMap.values r.reservations).all
        (fun e => (checkReservation env req date e).isNone) = false := by
      rw [Bool.eq_false_iff]
      intro hall
      rw [List.all_eq_true] at hall
      apply hne
      intro x hx
      obtain ⟨e, he, rfl⟩ := List.mem_map.mp hx
      simpa using hall e he
    simp [this]

/-- The case of a ledger with one record. -/
theorem CanReserve_single {env : Env} {req : ReserveRequest} {date : Time}
    (hparse : env.ParseISO8601 req.Date = .ok date) {r : reservationCache} {id : Int}
    {reservation : ReservationCacheEntry} (hledger : r.reservations = [(id, reservation)]) :
    CanReserve env r req = ((checkReservation env req date reservation).isNone, none) := by
  rw [CanReserve_of_parse hparse, hledger]
  simp [GoMap.values]

theorem seatsCollide_iff (reqSeats resSeats : TrainSeats) :
    seatsCollide reqSeats resSeats = true ↔
      ∃ seat ∈ reqSeats, ∃ existSeat ∈ resSeats,
        seat.Row = existSeat.Row ∧ seat.Column = existSeat.Column := by
  simp [seatsCollide, List.any_eq_true]

/-- Ranges that the modelled range check separates do not block: a record of
the same direction whose range ends where or before the request's range starts,
or starts where or after it ends, is skipped by its goroutine. -/
theorem checkReservation_separated (stationID : String → Option Nat)
    (parse : String → Except Error Time) (reservation : ReservationCacheEntry)
    (req : ReserveRequest) (date : Time) (resDep resArr reqDep reqArr : Nat)
    (hresDep : stationID reservation.Departure = some resDep)
    (hresArr : stationID reservation.Arrival = some resArr)
    (hreqDep : stationID req.Departure = some reqDep)
    (hreqArr : stationID req.Arrival = some reqArr)
    (hsep : if reqDep < reqArr then resArr ≤ reqDep ∨ reqArr ≤ resDep
      else reqDep ≤ resArr ∨ resDep ≤ reqArr) :
    checkReservation (specEnv stationID parse) req date reservation = none := by
  have hcan : canReserveWithOverwrap (specEnv stationID parse) req reservation
      = (true, none) := by
    simp only [canReserveWithOverwrap, specEnv, isKudari, isKudariOverwrap, hresDep, hresArr,
      hreqDep, hreqArr]
    by_cases hq : reqDep < reqArr
    · rw [if_pos hq] at hsep
      by_cases hr : resDep < resArr
      · have hov : (decide (resArr ≤ reqDep) || decide (reqArr ≤ resDep)) = true := by
          simpa using hsep
        simp [hq, hr, hov]
      · simp [hq, hr]
    · rw [if_neg hq] at hsep
      by_cases hr : resDep < resArr
      · simp [hq, hr]
      · have hov : (decide (resDep ≤ reqArr) || decide (reqDep ≤ resArr)) = true := by
          simpa [or_comm] using hsep
        simp [hq, hr, hov]
  unfold checkReservation
  split
  · rfl
  · split
    · rfl
    · simp [hcan]

/-! ## The admission check on a ledger with one record -/

/-- C1: for a ledger holding exactly one record and a request with the record's
date, train class and train name, the same travel direction and station ranges
that the range check reports as overlapping, `CanReserve` returns `(false, nil)`
if and only if the request has the record's car number and some requested seat
has the row and column of a seat of the record; otherwise it returns
`(true, nil)`. -/
theorem CanReserve_overlapping_iff_car_and_seat (env : Env) (r : reservationCache) (id : Int)
    (reservation : ReservationCacheEntry) (req : ReserveRequest) (date : Time) (kudari : Bool)
    (hledger : r.reservations = [(id, reservation)])
    (hparse : env.ParseISO8601 req.Date = .ok date)
    (hdate : date.Equal reservation.Date = true)
    (hclass : req.TrainClass = reservation.TrainClass)
    (hname : req.TrainName = reservation.TrainName)
    (hreqdir : env.isKudari req.Departure req.Arrival = .ok kudari)
    (hresdir : env.isKudari reservation.Departure reservation.Arrival = .ok kudari)
    (hover : (if kudari then
        env.isKudariOverwrap reservation.Departure reservation.Arrival req.Departure req.Arrival
      else
        env.isKudariOverwrap reservation.Arrival reservation.Departure req.Arrival req.Departure)
      = .ok true) :
    (CanReserve env r req = (false, none) ↔
      (req.CarNum = reservation.CarNum ∧
        ∃ seat ∈ req.Seats, ∃ existSeat ∈ reservation.Seats,
          seat.Row = existSeat.Row ∧ seat.Column = existSeat.Column))
    ∧ (¬ (req.CarNum = reservation.CarNum ∧
        ∃ seat ∈ req.Seats, ∃ existSeat ∈ reservation.Seats,
          seat.Row = existSeat.Row ∧ seat.Column = existSeat.Column)
        → CanReserve env r req = (true, none)) := by
  have hcan : canReserveWithOverwrap env req reservation = (false, none) := by
    cases kudari <;> simp_all [canReserveWithOverwrap]
  have hcheck : checkReservation env req date reservation
      = if req.CarNum ≠ reservation.CarNum then none
        else if seatsCollide req.Seats reservation.Seats then some Error.ErrCanNotReserve
        else none := by
    simp [checkReservation, hdate, hclass, hname, hcan]
  rw [CanReserve_single hparse hledger, hcheck, ← seatsCollide_iff]
  by_cases hcar : req.CarNum = reservation.CarNum
  · cases hs : seatsCollide req.Seats reservation.Seats <;> simp [hcar]
  · simp [hcar]

/-- The tests' case of C1: the stored 古岡→荒川 record and a 東京→磯川 request. -/
theorem CanReserve_overlapping_iff_car_and_seat_witness :
    (CanReserve testEnv (testLedger "古岡" "荒川")
        (testRequest "2020-01-01T10:01:00Z" "東京" "磯川") = (false, none) ↔
      ((testRequest "2020-01-01T10:01:00Z" "東京" "磯川").CarNum
          = (testEntry "古岡" "荒川").CarNum ∧
        ∃ seat ∈ (testRequest "2020-01-01T10:01:00Z" "東京" "磯川").Seats,
          ∃ existSeat ∈ (testEntry "古岡" "荒川").Seats,
            seat.Row = existSeat.Row ∧ seat.Column = existSeat.Column))
    ∧ (¬ ((testRequest "2020-01-01T10:01:00Z" "東京" "磯川").CarNum
          = (testEntry "古岡" "荒川").CarNum ∧
        ∃ seat ∈ (testRequest "2020-01-01T10:01:00Z" "東京" "磯川").Seats,
          ∃ existSeat ∈ (testEntry "古岡" "荒川").Seats,
            seat.Row = existSeat.Row ∧ seat.Column = existSeat.Column)
        → CanReserve testEnv (testLedger "古岡" "荒川")
            (testRequest "2020-01-01T10:01:00Z" "東京" "磯川") = (true, none)) :=
  CanReserve_overlapping_iff_car_and_seat testEnv (testLedger "古岡" "荒川") 10
    (testEntry "古岡" "荒川") (testRequest "2020-01-01T10:01:00Z" "東京" "磯川") testTime
    true rfl rfl rfl rfl rfl rfl rfl rfl

/-- C2: a record with the request's date, train class and train name but the
opposite travel direction (one trip down-line, the other up-line, both between
known stations) does not block the request: with that record alone in the
ledger `CanReserve` returns `(true, nil)`, whatever the car numbers and seats. -/
theorem CanReserve_opposite_direction (env : Env) (r : reservationCache) (id : Int)
    (reservation : ReservationCacheEntry) (req : ReserveRequest) (date : Time)
    (reqKudari resKudari : Bool)
    (hledger : r.reservations = [(id, reservation)])
    (hparse : env.ParseISO8601 req.Date = .ok date)
    (_hdate : date.Equal reservation.Date = true)
    (_hclass : req.TrainClass = reservation.TrainClass)
    (_hname : req.TrainName = reservation.TrainName)
    (hreqdir : env.isKudari req.Departure req.Arrival = .ok reqKudari)
    (hresdir : env.isKudari reservation.Departure reservation.Arrival = .ok resKudari)
    (hopposite : reqKudari ≠ resKudari) :
    CanReserve env r req = (true, none) := by
  have hcan : canReserveWithOverwrap env req reservation = (true, none) := by
    simp [canReserveWithOverwrap, hreqdir, hresdir, hopposite]
  rw [CanReserve_single hparse hledger]
  simp only [checkReservation, hcan]
  split
  · rfl
  · split <;> rfl

/-- An instance of C2: the stored 古岡→荒川 record and the reverse 荒川→古岡
request for the same car and seat. -/
theorem CanReserve_opposite_direction_witness :
    CanReserve testEnv (testLedger "古岡" "荒川")
      (testRequest "2020-01-01T10:01:00Z" "荒川" "古岡") = (true, none) :=
  CanReserve_opposite_direction testEnv (testLedger "古岡" "荒川") 10
    (testEntry "古岡" "荒川") (testRequest "2020-01-01T10:01:00Z" "荒川" "古岡") testTime
    false true rfl rfl rfl rfl rfl rfl rfl (by decide)

/-- C3: a record with the request's date, train class, train name and travel
direction whose station range does not overlap the request's (one range's
arrival equals or precedes the other's departure in the direction of travel)
does not block the request: with that record alone in the ledger `CanReserve`
returns `(true, nil)`, also when the car number and every seat are the same.
The stations are numbered in down-line order by `stationID`. -/
theorem CanReserve_non_overlapping (stationID : String → Option Nat)
    (parse : String → Except Error Time) (r : reservationCache) (id : Int)
    (reservation : ReservationCacheEntry) (req : ReserveRequest) (date : Time)
    (resDep resArr reqDep reqArr : Nat)
    (hledger : r.reservations = [(id, reservation)])
    (hparse : parse req.Date = .ok date)
    (_hdate : date.Equal reservation.Date = true)
    (_hclass : req.TrainClass = reservation.TrainClass)
    (_hname : req.TrainName = reservation.TrainName)
    (hresDep : stationID reservation.Departure = some resDep)
    (hresArr : stationID reservation.Arrival = some resArr)
    (hreqDep : stationID req.Departure = some reqDep)
    (hreqArr : stationID req.Arrival = some reqArr)
    (_hdirection : reqDep < reqArr ↔ resDep < resArr)
    (hseparate : if reqDep < reqArr then resArr ≤ reqDep ∨ reqArr ≤ resDep
      else reqDep ≤ resArr ∨ resDep ≤ reqArr) :
    CanReserve (specEnv stationID parse) r req = (true, none) := by
  have hp : (specEnv stationID parse).ParseISO8601 req.Date = .ok date := hparse
  rw [CanReserve_single hp hledger,
    checkReservation_separated stationID parse reservation req date resDep resArr reqDep reqArr
      hresDep hresArr hreqDep hreqArr hseparate]
  rfl

/-- An instance of C3: the stored 山田→荒川 record and a 東京→古岡 request for the
same car and seat. -/
theorem CanReserve_non_overlapping_witness :
    CanReserve (specEnv testStationID ParseISO8601) (testLedger "山田" "荒川")
      (testRequest "2020-01-01T10:01:00Z" "東京" "古岡") = (true, none) :=
  CanReserve_non_overlapping testStationID ParseISO8601 (testLedger "山田" "荒川") 10
    (testEntry "山田" "荒川") (testRequest "2020-01-01T10:01:00Z" "東京" "古岡") testTime
    3 4 1 2 rfl rfl rfl rfl rfl rfl rfl rfl rfl (by decide) (by decide)

/-- C4: ranges that touch at an endpoint never conflict, in both directions.
With stations A, B, C in down-line order, a stored record A→B does not block a
request B→C, and a stored record B→A does not block a request C→B: on the same
date and train `CanReserve` returns `(true, nil)`, also when the car number and
the seats are the same. -/
theorem CanReserve_touching_endpoints (stationID : String → Option Nat)
    (parse : String → Except Error Time) (r : reservationCache) (id : Int)
    (reservation : ReservationCacheEntry) (req : ReserveRequest) (date : Time)
    (a b c : Nat)
    (hledger : r.reservations = [(id, reservation)])
    (hparse : parse req.Date = .ok date)
    (_hdate : date.Equal reservation.Date = true)
    (_hclass : req.TrainClass = reservation.TrainClass)
    (_hname : req.TrainName = reservation.TrainName)
    (_hab : a < b) (hbc : b < c)
    (htouch :
      (stationID reservation.Departure = some a ∧ stationID reservation.Arrival = some b
        ∧ req.Departure = reservation.Arrival ∧ stationID req.Arrival = some c)
      ∨ (stationID reservation.Departure = some b ∧ stationID reservation.Arrival = some a
        ∧ stationID req.Departure = some c ∧ req.Arrival = reservation.Departure)) :
    CanReserve (specEnv stationID parse) r req = (true, none) := by
  have hp : (specEnv stationID parse).ParseISO8601 req.Date = .ok date := hparse
  rw [CanReserve_single hp hledger]
  rcases htouch with ⟨h1, h2, h3, h4⟩ | ⟨h1, h2, h3, h4⟩
  · have h5 : stationID req.Departure = some b := by rw [h3]; exact h2
    rw [checkReservation_separated stationID parse reservation req date a b b c h1 h2 h5 h4
      (by rw [if_pos hbc]; exact Or.inl (Nat.le_refl b))]
    rfl
  · have h5 : stationID req.Arrival = some b := by rw [h4]; exact h1
    rw [checkReservation_separated stationID parse reservation req date b a c b h1 h2 h3 h5
      (by rw [if_neg (by omega)]; exact Or.inr (Nat.le_refl b))]
    rfl

/-- The tests' cases of C4: the stored 古岡→荒川 record with a 荒川→鳴門 request,
and the stored 荒川→古岡 record with a 鳴門→荒川 request. -/
theorem CanReserve_touching_endpoints_witness :
    CanReserve (specEnv testStationID ParseISO8601) (testLedger "古岡" "荒川")
        (testRequest "2020-01-01T10:01:00Z" "荒川" "鳴門") = (true, none)
    ∧ CanReserve (specEnv testStationID ParseISO8601) (testLedger "荒川" "古岡")
        (testRequest "2020-01-01T10:01:00Z" "鳴門" "荒川") = (true, none) :=
  ⟨CanReserve_touching_endpoints testStationID ParseISO8601 (testLedger "古岡" "荒川") 10
      (testEntry "古岡" "荒川") (testRequest "2020-01-01T10:01:00Z" "荒川" "鳴門") testTime
      2 4 5 rfl rfl rfl rfl rfl (by decide) (by decide) (Or.inl ⟨rfl, rfl, rfl, rfl⟩),
   CanReserve_touching_endpoints testStationID ParseISO8601 (testLedger "荒川" "古岡") 10
      (testEntry "荒川" "古岡") (testRequest "2020-01-01T10:01:00Z" "鳴門" "荒川") testTime
      2 4 5 rfl rfl rfl rfl rfl (by decide) (by decide) (Or.inr ⟨rfl, rfl, rfl, rfl⟩)⟩

/-! ## Malformed and differing dates -/

/-- On a ledger with at least one record a request whose date does not parse is
refused with `(false, nil)`. -/
theorem CanReserve_malformed_of_nonempty (env : Env) (r : reservationCache)
    (req : ReserveRequest) (err : Error) (hparse : env.ParseISO8601 req.Date = .error err)
    (hne : r.reservations ≠ []) : CanReserve env r req = (false, none) := by
  unfold CanReserve
  cases hv : r.reservations with
  | nil => exact absurd hv hne
  | cons p t => simp [GoMap.values, launchChecks_of_parse_error hparse]

/-- C5, at the empty ledger: the date is parsed inside the loop over the stored
records, so with no record it is never parsed; the request with the malformed
date `not-a-date` is admitted with `(true, nil)`, not refused with
`(false, nil)`. -/
theorem CanReserve_malformed_date_empty_ledger :
    (∃ err, testEnv.ParseISO8601 (testRequest "not-a-date" "古岡" "荒川").Date = .error err)
    ∧ CanReserve testEnv newReservationCache (testRequest "not-a-date" "古岡" "荒川")
        = (true, none) :=
  ⟨⟨_, rfl⟩, rfl⟩

/-- C6 as stated fails: the stored record and the request fall on the same
calendar day (2020-01-01) one minute apart, with the same train, direction,
range, car and seat, and `CanReserve` returns `(true, nil)`. -/
theorem CanReserve_same_day_other_time_admitted :
    (∃ date, testEnv.ParseISO8601 (testRequest "2020-01-01T10:02:00Z" "古岡" "荒川").Date
          = .ok date
        ∧ date.calendarDate = (testEntry "古岡" "荒川").Date.calendarDate)
    ∧ CanReserve testEnv (testLedger "古岡" "荒川")
        (testRequest "2020-01-01T10:02:00Z" "古岡" "荒川") = (true, none)
    ∧ CanReserve testEnv (testLedger "古岡" "荒川")
        (testRequest "2020-01-01T10:02:00Z" "古岡" "荒川") ≠ (false, none) :=
  ⟨⟨_, rfl, rfl⟩, rfl, by decide⟩

/-- C6, amended: `CanReserve` compares travel dates as instants. A stored
record whose date is the same instant as the request's parsed date, with the
same train class and name, the same direction, overlapping ranges, the same car
and a shared seat, makes `CanReserve` return `(false, nil)`, whatever else the
ledger holds. -/
theorem CanReserve_same_instant_rejected (env : Env) (r : reservationCache)
    (reservation : ReservationCacheEntry) (req : ReserveRequest) (date : Time) (kudari : Bool)
    (hstored : reservation ∈ GoMap.values r.reservations)
    (hparse : env.ParseISO8601 req.Date = .ok date)
    (hdate : date.Equal reservation.Date = true)
    (hclass : req.TrainClass = reservation.TrainClass)
    (hname : req.TrainName = reservation.TrainName)
    (hreqdir : env.isKudari req.Departure req.Arrival = .ok kudari)
    (hresdir : env.isKudari reservation.Departure reservation.Arrival = .ok kudari)
    (hover : (if kudari then
        env.isKudariOverwrap reservation.Departure reservation.Arrival req.Departure req.Arrival
      else
        env.isKudariOverwrap reservation.Arrival reservation.Departure req.Arrival req.Departure)
      = .ok true)
    (hcar : req.CarNum = reservation.CarNum)
    (hseat : ∃ seat ∈ req.Seats, ∃ existSeat ∈ reservation.Seats,
      seat.Row = existSeat.Row ∧ seat.Column = existSeat.Column) :
    CanReserve env r req = (false, none) := by
  have hcan : canReserveWithOverwrap env req reservation = (false, none) := by
    cases kudari <;> simp_all [canReserveWithOverwrap]
  have hcheck : checkReservation env req date reservation = some Error.ErrCanNotReserve := by
    rw [← seatsCollide_iff] at hseat
    simp [checkReservation, hdate, hclass, hname, hcan, hcar, hseat]
  rw [CanReserve_of_parse hparse]
  have : (GoMap.values r.reservations).all
      (fun e => (checkReservation env req date e).isNone) = false := by
    rw [Bool.eq_false_iff]
    intro hall
    rw [List.all_eq_true] at hall
    have := hall reservation hstored
    simp [hcheck] at this
  rw [this]

/-- The tests' case of the amended C6: the stored 古岡→荒川 record and the same
request again. -/
theorem CanReserve_same_instant_rejected_witness :
    CanReserve testEnv (testLedger "古岡" "荒川")
      (testRequest "2020-01-01T10:01:00Z" "古岡" "荒川") = (false, none) :=
  CanReserve_same_instant_rejected testEnv (testLedger "古岡" "荒川") (testEntry "古岡" "荒川")
    (testRequest "2020-01-01T10:01:00Z" "古岡" "荒川") testTime true
    (by simp [testLedger, GoMap.values]) rfl rfl rfl rfl rfl rfl rfl rfl
    ⟨_, List.mem_singleton.mpr rfl, _, List.mem_singleton.mpr rfl, rfl, rfl⟩

/-- C7: for a request whose date parses, if every stored record differs from
the request in its date (as `Time.Equal` compares it), in its train class or in
its train name, `CanReserve` returns `(true, nil)`, whatever the stations, car
numbers and seats. -/
theorem CanReserve_no_record_of_same_train_and_date (env : Env) (r : reservationCache)
    (req : ReserveRequest) (date : Time)
    (hparse : env.ParseISO8601 req.Date = .ok date)
    (hdiffer : ∀ reservation ∈ GoMap.values r.reservations,
      date.Equal reservation.Date = false ∨ req.TrainClass ≠ reservation.TrainClass
        ∨ req.TrainName ≠ reservation.TrainName) :
    CanReserve env r req = (true, none) := by
  rw [CanReserve_of_parse hparse]
  have : (GoMap.values r.reservations).all
      (fun e => (checkReservation env req date e).isNone) = true := by
    rw [List.all_eq_true]
    intro e he
    rcases hdiffer e he with h | h | h
    · simp [checkReservation, h]
    · simp [checkReservation, h]
    · simp [checkReservation, h]
  rw [this]

/-- The tests' cases of C7: against the stored 古岡→荒川 record, the same request
one minute later, and a 東京→古岡 request for the train `badtest1`. -/
theorem CanReserve_no_record_of_same_train_and_date_witness :
    CanReserve testEnv (testLedger "古岡" "荒川")
        (testRequest "2020-01-01T10:02:00Z" "古岡" "荒川") = (true, none)
    ∧ CanReserve testEnv (testLedger "古岡" "荒川")
        { testRequest "2020-01-01T10:01:00Z" "東京" "古岡" with
          TrainClass := "badtest1", TrainName := "badtest1",
          Seats := [{ Row := 1, Column := "badc0lumn1" }] } = (true, none) :=
  ⟨CanReserve_no_record_of_same_train_and_date testEnv (testLedger "古岡" "荒川")
      (testRequest "2020-01-01T10:02:00Z" "古岡" "荒川")
      { year := 2020, month := 1, day := 1, hour := 10, minute := 2, second := 0, nsec := 0 }
      rfl (by simp [testLedger, GoMap.values, testEntry, entryOf, testTime, Time.Equal]),
   CanReserve_no_record_of_same_train_and_date testEnv (testLedger "古岡" "荒川")
      { testRequest "2020-01-01T10:01:00Z" "東京" "古岡" with
        TrainClass := "badtest1", TrainName := "badtest1",
        Seats := [{ Row := 1, Column := "badc0lumn1" }] }
      testTime rfl
      (by simp [testLedger, GoMap.values, testEntry, entryOf, testRequest])⟩

/-! ## `Commit` and `Cancel` -/

/-- C8: `Commit` fails, with `ErrCommitReservation`, exactly when the
identifier is not in the registered set, and `Cancel` fails, with
`ErrCancelReservation`, exactly when the identifier is not in the registered
set; a failing call leaves the three sets as they were. -/
theorem Commit_Cancel_fail_iff_unregistered (r : reservationCache) (reservationID : Int) :
    ((Commit r reservationID).2 ≠ none ↔ GoMap.get r.reservations reservationID = none)
    ∧ ((Commit r reservationID).2 = some Error.ErrCommitReservation
        ↔ GoMap.get r.reservations reservationID = none)
    ∧ ((Commit r reservationID).2 ≠ none → (Commit r reservationID).1 = r)
    ∧ ((Cancel r reservationID).2 ≠ none ↔ GoMap.get r.reservations reservationID = none)
    ∧ ((Cancel r reservationID).2 = some Error.ErrCancelReservation
        ↔ GoMap.get r.reservations reservationID = none)
    ∧ ((Cancel r reservationID).2 ≠ none → (Cancel r reservationID).1 = r) := by
  cases hget : GoMap.get r.reservations reservationID with
  | none => simp [Commit, Cancel, hget]
  | some reservation =>
    have hcommit : (Commit r reservationID).2 = none := by simp [Commit, hget]
    have hcancel : (Cancel r reservationID).2 = none := by
      simp only [Cancel, hget]
      split <;> rfl
    simp [hcommit, hcancel]

/-- C9: for a registered identifier, after `Commit` followed by `Cancel` the
identifier is not in the committed set, is in the canceled set with its record,
is still in the registered set, and the entries of every other identifier in
the three sets are as before; both calls succeed. -/
theorem Cancel_after_Commit (r : reservationCache) (reservationID : Int)
    (reservation : ReservationCacheEntry)
    (hregistered : GoMap.get r.reservations reservationID = some reservation) :
    (Commit r reservationID).2 = none
    ∧ (Cancel (Commit r reservationID).1 reservationID).2 = none
    ∧ GoMap.get (Cancel (Commit r reservationID).1 reservationID).1.commitedReservations
        reservationID = none
    ∧ GoMap.get (Cancel (Commit r reservationID).1 reservationID).1.canceledReservations
        reservationID = some reservation
    ∧ GoMap.get (Cancel (Commit r reservationID).1 reservationID).1.reservations
        reservationID = some reservation
    ∧ ∀ other, other ≠ reservationID →
        GoMap.get (Cancel (Commit r reservationID).1 reservationID).1.reservations other
          = GoMap.get r.reservations other
        ∧ GoMap.get (Cancel (Commit r reservationID).1 reservationID).1.commitedReservations
            other = GoMap.get r.commitedReservations other
        ∧ GoMap.get (Cancel (Commit r reservationID).1 reservationID).1.canceledReservations
            other = GoMap.get r.canceledReservations other := by
  have hcommit : Commit r reservationID
      = ({ r with commitedReservations :=
            GoMap.set r.commitedReservations reservationID reservation }, none) := by
    simp [Commit, hregistered]
  have hcancel : Cancel (Commit r reservationID).1 reservationID
      = ({ reservations := r.reservations
           commitedReservations :=
            GoMap.delete (GoMap.set r.commitedReservations reservationID reservation)
              reservationID
           canceledReservations :=
            GoMap.set r.canceledReservations reservationID reservation }, none) := by
    simp [hcommit, Cancel, hregistered, GoMap.get_set_same]
  rw [hcancel, hcommit]
  refine ⟨rfl, rfl, GoMap.get_delete_same _ _, GoMap.get_set_same _ _ _, hregistered, ?_⟩
  intro other hother
  refine ⟨rfl, ?_, GoMap.get_set_other _ _ hother⟩
  show GoMap.get (GoMap.delete (GoMap.set r.commitedReservations reservationID reservation)
    reservationID) other = _
  rw [GoMap.get_delete_other _ hother, GoMap.get_set_other _ _ hother]

/-- An instance of C9: the ledger of the tests, identifier 10. -/
theorem Cancel_after_Commit_witness :
    (Commit (testLedger "古岡" "荒川") 10).2 = none
    ∧ (Cancel (Commit (testLedger "古岡" "荒川") 10).1 10).2 = none
    ∧ GoMap.get (Cancel (Commit (testLedger "古岡" "荒川") 10).1 10).1.commitedReservations
        10 = none
    ∧ GoMap.get (Cancel (Commit (testLedger "古岡" "荒川") 10).1 10).1.canceledReservations
        10 = some (testEntry "古岡" "荒川")
    ∧ GoMap.get (Cancel (Commit (testLedger "古岡" "荒川") 10).1 10).1.reservations
        10 = some (testEntry "古岡" "荒川")
    ∧ ∀ other, other ≠ 10 →
        GoMap.get (Cancel (Commit (testLedger "古岡" "荒川") 10).1 10).1.reservations other
          = GoMap.get (testLedger "古岡" "荒川").reservations other
        ∧ GoMap.get (Cancel (Commit (testLedger "古岡" "荒川") 10).1 10).1.commitedReservations
            other = GoMap.get (testLedger "古岡" "荒川").commitedReservations other
        ∧ GoMap.get (Cancel (Commit (testLedger "古岡" "荒川") 10).1 10).1.canceledReservations
            other = GoMap.get (testLedger "古岡" "荒川").canceledReservations other :=
  Cancel_after_Commit (testLedger "古岡" "荒川") 10 (testEntry "古岡" "荒川") rfl

/-- C10 fails on the code: `Commit` does not look at the canceled set. After
`Add`, `Cancel` and `Commit` of the identifier 10 on the empty ledger, all three
calls succeed and the identifier is both in the canceled set and in the
committed set. -/
theorem Commit_after_Cancel_in_both_sets :
    run testEnv
        [Call.add (some testUser) (testRequest "2020-01-01T10:01:00Z" "古岡" "荒川") 10,
          Call.cancel 10, Call.commit 10]
      = { reservations := [(10, testEntry "古岡" "荒川")]
          commitedReservations := [(10, testEntry "古岡" "荒川")]
          canceledReservations := [(10, testEntry "古岡" "荒川")] }
    ∧ (Commit (Cancel (testLedger "古岡" "荒川") 10).1 10).2 = none
    ∧ GoMap.get (run testEnv
        [Call.add (some testUser) (testRequest "2020-01-01T10:01:00Z" "古岡" "荒川") 10,
          Call.cancel 10, Call.commit 10]).canceledReservations 10
        = some (testEntry "古岡" "荒川")
    ∧ GoMap.get (run testEnv
        [Call.add (some testUser) (testRequest "2020-01-01T10:01:00Z" "古岡" "荒川") 10,
          Call.cancel 10, Call.commit 10]).commitedReservations 10
        = some (testEntry "古岡" "荒川") := by
  refine ⟨?_, ?_, ?_, ?_⟩ <;> decide

/-! ## Reachable ledgers and the round trip of `Add` -/

namespace GoMap

variable {β : Type}

theorem get_set_ne_none (m : GoMap β) (k j : Int) (v : β)
    (h : j = k ∨ get m j ≠ none) : get (set m k v) j ≠ none := by
  by_cases hjk : j = k
  · subst hjk
    simp [get_set_same]
  · rw [get_set_other m v hjk]
    exact h.resolve_left hjk

theorem get_of_get_delete (m : GoMap β) (k j : Int) (h : get (delete m k) j ≠ none) :
    get m j ≠ none := by
  by_cases hjk : j = k
  · subst hjk
    exact absurd (get_delete_same m j) h
  · rwa [get_delete_other m hjk] at h

theorem get_of_get_set (m : GoMap β) (k j : Int) (v : β) (h : get (set m k v) j ≠ none) :
    j = k ∨ get m j ≠ none := by
  by_cases hjk : j = k
  · exact Or.inl hjk
  · rw [get_set_other m v hjk] at h
    exact Or.inr h

end GoMap

theorem Registered_step (env : Env) (r : reservationCache) (call : Call)
    (h : Registered r) : Registered (step env r call) := by
  cases call with
  | add user req reservationID =>
    intro id hid
    simp only [step, Add]
    cases hp : env.ParseISO8601 req.Date with
    | error err =>
      simp only [step, Add, hp] at hid
      exact h id hid
    | ok date =>
      simp only [step, Add, hp] at hid
      exact GoMap.get_set_ne_none _ _ _ _ (Or.inr (h id hid))
  | commit reservationID =>
    intro id hid
    simp only [step, Commit] at hid ⊢
    cases hg : GoMap.get r.reservations reservationID with
    | none =>
      simp only [hg] at hid
      exact h id hid
    | some reservation =>
      simp only [hg] at hid
      rcases hid with hc | hc
      · rcases GoMap.get_of_get_set _ _ _ _ hc with rfl | hc1
        · simp [hg]
        · exact h id (Or.inl hc1)
      · exact h id (Or.inr hc)
  | cancel reservationID =>
    intro id hid
    simp only [step, Cancel] at hid ⊢
    cases hg : GoMap.get r.reservations reservationID with
    | none =>
      simp only [hg] at hid
      exact h id hid
    | some reservation =>
      simp only [hg] at hid
      have key : GoMap.get r.commitedReservations id ≠ none
          ∨ GoMap.get (GoMap.set r.canceledReservations reservationID reservation) id ≠ none →
          GoMap.get r.reservations id ≠ none := by
        rintro (hc | hc)
        · exact h id (Or.inl hc)
        · rcases GoMap.get_of_get_set _ _ _ _ hc with rfl | hc1
          · simp [hg]
          · exact h id (Or.inr hc1)
      cases hcm : GoMap.get r.commitedReservations reservationID with
      | none =>
        simp only [hcm] at hid
        exact key hid
      | some committed =>
        simp only [hcm] at hid
        rcases hid with hc | hc
        · exact key (Or.inl (GoMap.get_of_get_delete _ _ _ hc))
        · exact key (Or.inr hc)

theorem Registered_foldl (env : Env) (calls : List Call) (r : reservationCache)
    (h : Registered r) : Registered (calls.foldl (step env) r) := by
  induction calls generalizing r with
  | nil => exact h
  | cons call rest ih => exact ih _ (Registered_step env r call h)

/-- C11: in every ledger reached from the empty ledger by a sequence of `Add`,
`Commit` and `Cancel` calls, every identifier in the committed set or in the
canceled set is also in the registered set. -/
theorem run_committed_canceled_are_registered (env : Env) (calls : List Call) (id : Int)
    (h : GoMap.get (run env calls).commitedReservations id ≠ none
      ∨ GoMap.get (run env calls).canceledReservations id ≠ none) :
    GoMap.get (run env calls).reservations id ≠ none :=
  Registered_foldl env calls newReservationCache
    (by intro j hj; simp [newReservationCache, GoMap.get] at hj) id h

/-- An instance of C11: after `Add`, `Commit` and `Cancel` of the identifier 10
the identifier is canceled, and registered. -/
theorem run_committed_canceled_are_registered_witness :
    GoMap.get (run testEnv
        [Call.add (some testUser) (testRequest "2020-01-01T10:01:00Z" "古岡" "荒川") 10,
          Call.commit 10, Call.cancel 10]).reservations 10 ≠ none :=
  run_committed_canceled_are_registered testEnv
    [Call.add (some testUser) (testRequest "2020-01-01T10:01:00Z" "古岡" "荒川") 10,
      Call.commit 10, Call.cancel 10] 10 (Or.inr (by decide))

/-- C12: when the date of the request parses, `Add` succeeds, `Reservation` of
the identifier then finds a record whose user, identifier, parsed date,
departure, arrival, train class, train name, car number, seat class, seats and
adult and child counts are those passed in, and `Reservation` of every other
identifier answers as before; when the date does not parse, `Add` returns the
parse error and the ledger is unchanged. -/
theorem Add_Reservation_round_trip (env : Env) (r : reservationCache) (user : Option User)
    (req : ReserveRequest) (reservationID : Int) :
    (∀ date, env.ParseISO8601 req.Date = .ok date →
      (Add env r user req reservationID).2 = none
      ∧ Reservation (Add env r user req reservationID).1 reservationID
          = (some { User := user, ID := reservationID, Date := date,
                    Departure := req.Departure, Arrival := req.Arrival,
                    TrainClass := req.TrainClass, TrainName := req.TrainName,
                    CarNum := req.CarNum, SeatClass := req.SeatClass, Seats := req.Seats,
                    Adult := req.Adult, Child := req.Child }, true)
      ∧ ∀ other, other ≠ reservationID →
          Reservation (Add env r user req reservationID).1 other = Reservation r other)
    ∧ (∀ err, env.ParseISO8601 req.Date = .error err →
        Add env r user req reservationID = (r, some err)) := by
  constructor
  · intro date hparse
    refine ⟨by simp [Add, hparse], ?_, ?_⟩
    · simp [Add, hparse, Reservation, GoMap.get_set_same]
    · intro other hother
      simp [Add, hparse, Reservation, GoMap.get_set_other _ _ hother]
  · intro err hparse
    simp [Add, hparse]

end Isutrain

/-! # Properties of the error counters -/

namespace Bencherror

theorem toInt64_of_lt (x : Nat) (h : x < 2 ^ 63) : toInt64 x = (x : Int) := by
  have h1 : x % 2 ^ 64 = x := Nat.mod_eq_of_lt (by omega)
  unfold toInt64
  rw [h1, if_pos h]

theorem wrapped_sum (M a b c : Nat) :
    (a % M + (b * (c % M)) % M) % M = (a + b * c) % M := by
  simp [Nat.add_mod, Nat.mul_mod]

/-- Without overflow `Penalty` is the penalty over the naturals with the
division rounded down. -/
theorem Penalty_of_fits (cfg : Config) (errs : BenchErrors)
    (hd : 0 < cfg.TrivialPenaltyPerCount)
    (hsum : errs.timeoutCnt + errs.temporaryCnt < 2 ^ 64)
    (hfit : penaltyRoundedDown cfg errs < 2 ^ 63) :
    Penalty cfg errs = some ((penaltyRoundedDown cfg errs : Nat) : Int) := by
  have ht : (errs.timeoutCnt + errs.temporaryCnt) % 2 ^ 64
      = errs.timeoutCnt + errs.temporaryCnt := Nat.mod_eq_of_lt hsum
  unfold Penalty
  simp only [ht]
  unfold penaltyRoundedDown at hfit ⊢
  by_cases hgt : errs.timeoutCnt + errs.temporaryCnt > cfg.TrivialPenaltyThreshold
  · rw [if_pos hgt] at hfit ⊢
    rw [if_pos hgt, if_neg (by omega), wrapped_sum]
    rw [Nat.mul_comm cfg.ApplicationPenaltyWeight errs.applicationCnt]
    have hlt : (errs.applicationCnt * cfg.ApplicationPenaltyWeight + cfg.TrivialPenaltyWeight
        * (1 + (errs.timeoutCnt + errs.temporaryCnt - cfg.TrivialPenaltyThreshold)
            / cfg.TrivialPenaltyPerCount)) < 2 ^ 64 := by omega
    rw [Nat.mod_eq_of_lt hlt, toInt64_of_lt _ hfit]
  · rw [if_neg hgt] at hfit ⊢
    rw [if_neg hgt]
    rw [Nat.mul_comm cfg.ApplicationPenaltyWeight errs.applicationCnt]
    have hlt : errs.applicationCnt * cfg.ApplicationPenaltyWeight < 2 ^ 64 := by omega
    rw [Nat.mod_eq_of_lt hlt, toInt64_of_lt _ (by omega)]
    simp

theorem penaltyRoundedDown_mono (cfg : Config) (a b : BenchErrors)
    (happ : a.applicationCnt ≤ b.applicationCnt)
    (htriv : a.timeoutCnt + a.temporaryCnt ≤ b.timeoutCnt + b.temporaryCnt) :
    penaltyRoundedDown cfg a ≤ penaltyRoundedDown cfg b := by
  unfold penaltyRoundedDown
  apply Nat.add_le_add (Nat.mul_le_mul_right _ happ)
  by_cases hgt : a.timeoutCnt + a.temporaryCnt > cfg.TrivialPenaltyThreshold
  · have hgt2 : b.timeoutCnt + b.temporaryCnt > cfg.TrivialPenaltyThreshold := by omega
    rw [if_pos hgt, if_pos hgt2]
    apply Nat.mul_le_mul_left
    apply Nat.add_le_add_left
    apply Nat.div_le_div_right
    omega
  · rw [if_neg hgt]
    exact Nat.zero_le _

/-- C13 as stated fails: with threshold 1, divisor 2 and weight 100, after two
timeout errors `Penalty` is 100 = 100 × (1 + ⌊1 / 2⌋), and the value with the
division rounded up is 200 = 100 × (1 + ⌈1 / 2⌉). -/
theorem Penalty_is_not_rounded_up :
    Penalty testConfig twoTimeouts = some 100
    ∧ penaltyRoundedUp testConfig twoTimeouts = 200
    ∧ Penalty testConfig twoTimeouts
        ≠ some ((penaltyRoundedUp testConfig twoTimeouts : Nat) : Int) := by
  refine ⟨by decide, by decide, by decide⟩

/-- C13, amended: `Penalty` is the application count times its weight, plus,
only when the timeout and temporary counts together exceed the threshold, the
trivial weight times (1 + ⌊(trivial count − threshold) / divisor⌋), the division
being rounded down; this holds when the divisor is positive and nothing
overflows (the sum of the two counts fits `uint64`, the result `int64`). -/
theorem Penalty_rounds_down (cfg : Config) (errs : BenchErrors)
    (hd : 0 < cfg.TrivialPenaltyPerCount)
    (hsum : errs.timeoutCnt + errs.temporaryCnt < 2 ^ 64)
    (hfit : errs.applicationCnt * cfg.ApplicationPenaltyWeight
      + (if errs.timeoutCnt + errs.temporaryCnt > cfg.TrivialPenaltyThreshold then
          cfg.TrivialPenaltyWeight
            * (1 + (errs.timeoutCnt + errs.temporaryCnt - cfg.TrivialPenaltyThreshold)
                / cfg.TrivialPenaltyPerCount)
        else 0) < 2 ^ 63) :
    Penalty cfg errs
      = some ((errs.applicationCnt * cfg.ApplicationPenaltyWeight
          + (if errs.timeoutCnt + errs.temporaryCnt > cfg.TrivialPenaltyThreshold then
              cfg.TrivialPenaltyWeight
                * (1 + (errs.timeoutCnt + errs.temporaryCnt - cfg.TrivialPenaltyThreshold)
                    / cfg.TrivialPenaltyPerCount)
            else 0) : Nat) : Int) :=
  Penalty_of_fits cfg errs hd hsum hfit

/-- An instance of the amended C13: two timeout errors cost 100. -/
theorem Penalty_rounds_down_witness :
    Penalty testConfig twoTimeouts
      = some ((twoTimeouts.applicationCnt * testConfig.ApplicationPenaltyWeight
          + (if twoTimeouts.timeoutCnt + twoTimeouts.temporaryCnt
                > testConfig.TrivialPenaltyThreshold then
              testConfig.TrivialPenaltyWeight
                * (1 + (twoTimeouts.timeoutCnt + twoTimeouts.temporaryCnt
                      - testConfig.TrivialPenaltyThreshold)
                    / testConfig.TrivialPenaltyPerCount)
            else 0) : Nat) : Int) :=
  Penalty_rounds_down testConfig twoTimeouts (by decide) (by decide) (by decide)

/-- C14: with a positive per-count divisor and no integer overflow, `Penalty` is
monotone: if the application count of `a` is at most that of `b` and the timeout
plus temporary count of `a` is at most that of `b`, then the penalty of `a` is at
most the penalty of `b`; and when timeout plus temporary does not exceed the
threshold the penalty is the application count times the application weight. -/
theorem Penalty_monotone (cfg : Config) (a b : BenchErrors)
    (hd : 0 < cfg.TrivialPenaltyPerCount)
    (hsum : b.timeoutCnt + b.temporaryCnt < 2 ^ 64)
    (hfit : penaltyRoundedDown cfg b < 2 ^ 63)
    (happ : a.applicationCnt ≤ b.applicationCnt)
    (htriv : a.timeoutCnt + a.temporaryCnt ≤ b.timeoutCnt + b.temporaryCnt) :
    (∃ pa pb, Penalty cfg a = some pa ∧ Penalty cfg b = some pb ∧ pa ≤ pb)
    ∧ (a.timeoutCnt + a.temporaryCnt ≤ cfg.TrivialPenaltyThreshold →
        Penalty cfg a = some ((a.applicationCnt * cfg.ApplicationPenaltyWeight : Nat) : Int)) := by
  have hmono := penaltyRoundedDown_mono cfg a b happ htriv
  have ha := Penalty_of_fits cfg a hd (by omega) (by omega)
  have hb := Penalty_of_fits cfg b hd hsum hfit
  refine ⟨⟨_, _, ha, hb, by exact_mod_cast hmono⟩, ?_⟩
  intro hle
  rw [ha]
  simp [penaltyRoundedDown, Nat.not_lt.mpr hle]

/-- An instance of C14: one timeout error costs nothing, two cost 100. -/
theorem Penalty_monotone_witness :
    (∃ pa pb, Penalty testConfig (runErrs NewBenchErrors
          [ErrCall.addError (some (testError errCode.errTimeout))]) = some pa
        ∧ Penalty testConfig twoTimeouts = some pb ∧ pa ≤ pb)
    ∧ ((runErrs NewBenchErrors
          [ErrCall.addError (some (testError errCode.errTimeout))]).timeoutCnt
        + (runErrs NewBenchErrors
          [ErrCall.addError (some (testError errCode.errTimeout))]).temporaryCnt
          ≤ testConfig.TrivialPenaltyThreshold →
        Penalty testConfig (runErrs NewBenchErrors
          [ErrCall.addError (some (testError errCode.errTimeout))])
          = some (((runErrs NewBenchErrors
              [ErrCall.addError (some (testError errCode.errTimeout))]).applicationCnt
            * testConfig.ApplicationPenaltyWeight : Nat) : Int)) :=
  Penalty_monotone testConfig
    (runErrs NewBenchErrors [ErrCall.addError (some (testError errCode.errTimeout))])
    twoTimeouts (by decide) (by decide) (by decide) (by decide) (by decide)

/-- C15: `IsFailure` is true exactly when the critical count is positive or the
application count is at least 1000; the timeout and temporary counts do not
affect it. -/
theorem IsFailure_iff (errs : BenchErrors) :
    (IsFailure errs = true ↔ errs.criticalCnt > 0 ∨ errs.applicationCnt ≥ 1000)
    ∧ ∀ timeoutCnt temporaryCnt,
        IsFailure { errs with timeoutCnt := timeoutCnt, temporaryCnt := temporaryCnt }
          = IsFailure errs := by
  constructor
  · simp [IsFailure]
  · intro t u
    rfl

/-! ## `AddError` and `DumpCounters` -/

/-- One call raises the critical and the application counter by at most one,
and lowers neither unless it wraps around. -/
theorem stepErrs_counters (errs : BenchErrors) (call : ErrCall)
    (hc : errs.criticalCnt + 1 < 2 ^ 64) (ha : errs.applicationCnt + 1 < 2 ^ 64) :
    errs.criticalCnt ≤ (stepErrs errs call).criticalCnt
    ∧ (stepErrs errs call).criticalCnt ≤ errs.criticalCnt + 1
    ∧ errs.applicationCnt ≤ (stepErrs errs call).applicationCnt
    ∧ (stepErrs errs call).applicationCnt ≤ errs.applicationCnt + 1 := by
  have hc1 : (errs.criticalCnt + 1) % 2 ^ 64 = errs.criticalCnt + 1 := Nat.mod_eq_of_lt hc
  have ha1 : (errs.applicationCnt + 1) % 2 ^ 64 = errs.applicationCnt + 1 :=
    Nat.mod_eq_of_lt ha
  cases call with
  | dumpCounters => simp [stepErrs, DumpCounters]
  | addError err =>
    cases err with
    | none => simp [stepErrs, AddError]
    | some e =>
      cases hf : errs.isBenchmarkFinished with
      | true => simp [stepErrs, AddError, hf]
      | false =>
        cases hx : e.extractCode with
        | none => simp [stepErrs, AddError, hf, hx]
        | some mc =>
          obtain ⟨msg, code⟩ := mc
          cases code <;> simp [stepErrs, AddError, hf, hx] <;> omega

theorem runErrs_counters (calls : List ErrCall) (errs : BenchErrors)
    (hc : errs.criticalCnt + calls.length < 2 ^ 64)
    (ha : errs.applicationCnt + calls.length < 2 ^ 64) :
    errs.criticalCnt ≤ (runErrs errs calls).criticalCnt
    ∧ errs.applicationCnt ≤ (runErrs errs calls).applicationCnt := by
  induction calls generalizing errs with
  | nil => exact ⟨Nat.le_refl _, Nat.le_refl _⟩
  | cons call rest ih =>
    simp only [List.length_cons] at hc ha
    obtain ⟨h1, h2, h3, h4⟩ := stepErrs_counters errs call (by omega) (by omega)
    obtain ⟨h5, h6⟩ := ih (stepErrs errs call) (by omega) (by omega)
    exact ⟨Nat.le_trans h1 h5, Nat.le_trans h3 h6⟩

/-- In every counter set built from `NewBenchErrors` the four counters together
count at most the user messages: a counter never moves without a message being
appended. -/
theorem runErrs_counters_le_messages (calls : List ErrCall) (errs : BenchErrors)
    (h : errs.criticalCnt + errs.applicationCnt + errs.timeoutCnt + errs.temporaryCnt
      ≤ errs.Msgs.length) :
    (runErrs errs calls).criticalCnt + (runErrs errs calls).applicationCnt
      + (runErrs errs calls).timeoutCnt + (runErrs errs calls).temporaryCnt
      ≤ (runErrs errs calls).Msgs.length := by
  induction calls generalizing errs with
  | nil => exact h
  | cons call rest ih =>
    apply ih
    cases call with
    | dumpCounters => simpa [stepErrs, DumpCounters] using h
    | addError err =>
      cases err with
      | none => simpa [stepErrs, AddError] using h
      | some e =>
        cases hf : errs.isBenchmarkFinished with
        | true => simpa [stepErrs, AddError, hf] using h
        | false =>
          cases hx : e.extractCode with
          | none => simpa [stepErrs, AddError, hf, hx] using h
          | some mc =>
            obtain ⟨msg, code⟩ := mc
            cases code <;> simp [stepErrs, AddError, hf, hx] <;> omega

/-- C16: `IsFailure` becomes true on the first critical error and does not
reset. After `AddError` of an error classified as critical on a counter set that
is not finalized `IsFailure` is true; and when `IsFailure` is true it is still
true after any sequence of `AddError` and `DumpCounters` calls. The counters are
`uint64`: the statement is for calls that do not wrap the critical or the
application counter around. -/
theorem IsFailure_on_critical_and_stays (errs : BenchErrors) :
    (∀ (err : GoError) (msg : String), errs.isBenchmarkFinished = false →
      err.extractCode = some (msg, errCode.errCritical) →
      errs.criticalCnt + 1 < 2 ^ 64 →
      IsFailure (AddError errs (some err)).1 = true)
    ∧ (∀ calls : List ErrCall, IsFailure errs = true →
      errs.criticalCnt + calls.length < 2 ^ 64 →
      errs.applicationCnt + calls.length < 2 ^ 64 →
      IsFailure (runErrs errs calls) = true) := by
  constructor
  · intro err msg hf hx hc
    simp only [AddError, hf, hx, IsFailure]
    simp only [Bool.false_eq_true, if_false, ite_eq_left_iff, imp_false, not_not]
    left
    omega
  · intro calls hfail hc ha
    obtain ⟨h1, h2⟩ := runErrs_counters calls errs hc ha
    simp only [IsFailure, ite_eq_left_iff, Bool.false_eq_true, imp_false, not_not,
      decide_eq_true_eq] at hfail ⊢
    omega

/-- An instance of C16: the first critical error makes `IsFailure` true, and it
is still true after a timeout error, `DumpCounters` and one more error. -/
theorem IsFailure_on_critical_and_stays_witness :
    IsFailure (AddError NewBenchErrors (some (testError errCode.errCritical))).1 = true
    ∧ IsFailure (runErrs (AddError NewBenchErrors (some (testError errCode.errCritical))).1
        [ErrCall.addError (some (testError errCode.errTimeout)), ErrCall.dumpCounters,
          ErrCall.addError (some (testError errCode.errApplication))]) = true :=
  ⟨(IsFailure_on_critical_and_stays NewBenchErrors).1 (testError errCode.errCritical)
      "request failed" rfl rfl (by decide),
   (IsFailure_on_critical_and_stays
      (AddError NewBenchErrors (some (testError errCode.errCritical))).1).2
      [ErrCall.addError (some (testError errCode.errTimeout)), ErrCall.dumpCounters,
        ErrCall.addError (some (testError errCode.errApplication))]
      (by decide) (by decide) (by decide)⟩

/-- C17: `AddError` changes nothing when the error is nil or the counter set is
finalized, in particular after `DumpCounters`: the messages, the internal
messages and the four counters are as before, so `Penalty`, `IsError` and
`IsFailure` answer as before; and `DumpCounters` changes none of the messages
and counters. -/
theorem AddError_noop_and_DumpCounters_frame (cfg : Config) (errs : BenchErrors)
    (err : Option GoError) :
    AddError errs none = (errs, none)
    ∧ (errs.isBenchmarkFinished = true → AddError errs err = (errs, none))
    ∧ AddError (DumpCounters errs) err = (DumpCounters errs, none)
    ∧ (DumpCounters errs).Msgs = errs.Msgs
    ∧ (DumpCounters errs).InternalMsgs = errs.InternalMsgs
    ∧ (DumpCounters errs).criticalCnt = errs.criticalCnt
    ∧ (DumpCounters errs).applicationCnt = errs.applicationCnt
    ∧ (DumpCounters errs).timeoutCnt = errs.timeoutCnt
    ∧ (DumpCounters errs).temporaryCnt = errs.temporaryCnt
    ∧ Penalty cfg (AddError (DumpCounters errs) err).1 = Penalty cfg errs
    ∧ IsError (AddError (DumpCounters errs) err).1 = IsError errs
    ∧ IsFailure (AddError (DumpCounters errs) err).1 = IsFailure errs := by
  have hfin : ∀ e : BenchErrors, e.isBenchmarkFinished = true →
      AddError e err = (e, none) := by
    intro e he
    cases err with
    | none => rfl
    | some x => simp [AddError, he]
  have hdump : AddError (DumpCounters errs) err = (DumpCounters errs, none) :=
    hfin _ rfl
  refine ⟨rfl, hfin errs, hdump, rfl, rfl, rfl, rfl, rfl, rfl, ?_, ?_, ?_⟩ <;>
    rw [hdump] <;> rfl

/-- C18 as stated fails: an error from which `extractCode` extracts nothing
(`ok` false) adds its text to the internal messages only; no user message is
appended and no counter moves. -/
theorem AddError_without_code_is_not_counted :
    (AddError NewBenchErrors (some plainError)).1.InternalMsgs = ["connection reset"]
    ∧ (AddError NewBenchErrors (some plainError)).1.Msgs = []
    ∧ (AddError NewBenchErrors (some plainError)).1.criticalCnt = 0
    ∧ (AddError NewBenchErrors (some plainError)).1.applicationCnt = 0
    ∧ (AddError NewBenchErrors (some plainError)).1.timeoutCnt = 0
    ∧ (AddError NewBenchErrors (some plainError)).1.temporaryCnt = 0
    ∧ IsError (AddError NewBenchErrors (some plainError)).1 = false := by
  decide

/-- C18, amended: for an error from which `extractCode` extracts a message and
a code, added to a counter set that is not finalized, `AddError` appends the
text of the error to the internal messages, appends one user message, and
increments exactly one counter by one (as a `uint64`): the counter of the class
when the code is critical, application, timeout or temporary, and the critical
counter for every other code. -/
theorem AddError_counts_coded_error (errs : BenchErrors) (err : GoError) (msg : String)
    (code : errCode) (hopen : errs.isBenchmarkFinished = false)
    (hcode : err.extractCode = some (msg, code)) :
    (AddError errs (some err)).2 = some err
    ∧ (AddError errs (some err)).1.InternalMsgs = errs.InternalMsgs ++ [err.Error]
    ∧ (∃ text, (AddError errs (some err)).1.Msgs = errs.Msgs ++ [text])
    ∧ (AddError errs (some err)).1.criticalCnt
        = (if code = errCode.errApplication ∨ code = errCode.errTimeout
              ∨ code = errCode.errTemporary then errs.criticalCnt
            else (errs.criticalCnt + 1) % 2 ^ 64)
    ∧ (AddError errs (some err)).1.applicationCnt
        = (if code = errCode.errApplication then (errs.applicationCnt + 1) % 2 ^ 64
            else errs.applicationCnt)
    ∧ (AddError errs (some err)).1.timeoutCnt
        = (if code = errCode.errTimeout then (errs.timeoutCnt + 1) % 2 ^ 64
            else errs.timeoutCnt)
    ∧ (AddError errs (some err)).1.temporaryCnt
        = (if code = errCode.errTemporary then (errs.temporaryCnt + 1) % 2 ^ 64
            else errs.temporaryCnt) := by
  cases code <;> simp [AddError, hopen, hcode]

/-- An instance of the amended C18: an error of an unknown code on the empty
counter set is counted as critical. -/
theorem AddError_counts_coded_error_witness :
    (AddError NewBenchErrors (some (testError (errCode.unknown "errOther")))).1.criticalCnt = 1
    ∧ (AddError NewBenchErrors (some (testError (errCode.unknown "errOther")))).1.Msgs
        = ["request failed 運営に確認をお願いいたします"] :=
  ⟨by
    have h := (AddError_counts_coded_error NewBenchErrors
      (testError (errCode.unknown "errOther")) "request failed" (errCode.unknown "errOther")
      rfl rfl).2.2.2.1
    simpa [NewBenchErrors] using h,
   by decide⟩

end Bencherror

/-! # Properties of the command `run` -/

namespace Bench

open Bencherror

theorem subInt64_of_fits (a b : Int) (hlo : -(2 ^ 63) ≤ a - b) (hhi : a - b < 2 ^ 63) :
    subInt64 a b = a - b := by
  unfold subInt64 toInt64
  have hlt : ((a - b) % 2 ^ 64).toNat < 2 ^ 64 := by omega
  rw [Nat.mod_eq_of_lt hlt]
  by_cases hneg : a - b < 0
  · have hge : ¬ ((a - b) % 2 ^ 64).toNat < 2 ^ 63 := by omega
    rw [if_neg hge]
    omega
  · have hlt2 : ((a - b) % 2 ^ 64).toNat < 2 ^ 63 := by omega
    rw [if_pos hlt2]
    omega

/-- C19 as stated fails: the final check records an application error
(`IsError` is true), nothing else goes wrong, and the run is reported with
pass = true and the raw score 1000. -/
theorem runAction_passes_with_final_check_error :
    IsError finalCheckApplicationError.FinalCheckErrs = true
    ∧ runAction testConfig finalCheckApplicationError
        = some { stdout := [{ Pass := true, Score := 1000,
                              Messages := ["エンドポイント成功回数: 10", "スコア: 1000",
                                "ペナルティ: 0"],
                              AvailableDays := 30, Language := "golang" }],
                 exitError := false } := by
  refine ⟨by decide, by decide⟩

/-- C19, amended: when the setup succeeds, the run is reported as failed
(pass = false, score = 0) if the Initialize or the PreTest phase recorded an
error (`IsError`) or the Benchmark or the FinalCheck phase disqualifies
(`IsFailure`); otherwise it is reported with pass = true and the score is the
raw endpoint score minus `Penalty` of the Benchmark counters, as an `int64`. -/
theorem runAction_verdict (cfg : Config) (w : ActionInputs) (hsetup : SetupSucceeds w) :
    ((IsError w.InitializeErrs = true ∨ IsError w.PreTestErrs = true
        ∨ IsFailure w.BenchmarkErrs = true ∨ IsFailure w.FinalCheckErrs = true) →
      ∃ result, runAction cfg w = some { stdout := [result], exitError := false }
        ∧ result.Pass = false ∧ result.Score = 0)
    ∧ (¬ (IsError w.InitializeErrs = true ∨ IsError w.PreTestErrs = true
        ∨ IsFailure w.BenchmarkErrs = true ∨ IsFailure w.FinalCheckErrs = true) →
      ∀ penalty, Penalty cfg w.BenchmarkErrs = some penalty →
        ∃ result, runAction cfg w = some { stdout := [result], exitError := false }
          ∧ result.Pass = true ∧ result.Score = subInt64 w.finalScore penalty
          ∧ (-(2 ^ 63) ≤ w.finalScore - penalty → w.finalScore - penalty < 2 ^ 63 →
              result.Score = w.finalScore - penalty)) := by
  obtain ⟨h1, h2, h3, h4, h5, h6, h7, h8⟩ := hsetup
  have hmock : (if w.Debug = true then w.mockRegisterErr else none) = none := by
    by_cases hdbg : w.Debug = true
    · rw [if_pos hdbg]; exact h6 hdbg
    · rw [if_neg hdbg]
  constructor
  · intro hfail
    unfold runAction
    simp only [h1, h2, h3, h4, h5, h7, h8, hmock, Bool.false_eq_true, if_false]
    by_cases hi : IsError w.InitializeErrs = true
    · exact ⟨_, by rw [if_pos hi], rfl, rfl⟩
    · rw [if_neg hi]
      by_cases hp : IsError w.PreTestErrs = true
      · exact ⟨_, by rw [if_pos hp], rfl, rfl⟩
      · rw [if_neg hp]
        by_cases hb : IsFailure w.BenchmarkErrs = true
        · exact ⟨_, by rw [if_pos hb], rfl, rfl⟩
        · rw [if_neg hb]
          by_cases hf : IsFailure w.FinalCheckErrs = true
          · exact ⟨_, by rw [if_pos hf], rfl, rfl⟩
          · rcases hfail with h | h | h | h
            · exact absurd h hi
            · exact absurd h hp
            · exact absurd h hb
            · exact absurd h hf
  · intro hok penalty hpen
    have hi : ¬ IsError w.InitializeErrs = true := fun h => hok (Or.inl h)
    have hp : ¬ IsError w.PreTestErrs = true := fun h => hok (Or.inr (Or.inl h))
    have hb : ¬ IsFailure w.BenchmarkErrs = true := fun h => hok (Or.inr (Or.inr (Or.inl h)))
    have hf : ¬ IsFailure w.FinalCheckErrs = true :=
      fun h => hok (Or.inr (Or.inr (Or.inr h)))
    unfold runAction
    simp only [h1, h2, h3, h4, h5, h7, h8, hmock, Bool.false_eq_true, if_false, if_neg hi,
      if_neg hp, if_neg hb, if_neg hf, hpen]
    exact ⟨_, rfl, rfl, rfl, fun hlo hhi => subInt64_of_fits _ _ hlo hhi⟩

/-- The setup of `pretestApplicationError` succeeds. -/
theorem pretestApplicationError_setup : SetupSucceeds pretestApplicationError :=
  ⟨rfl, rfl, rfl, rfl, rfl, fun _ => rfl, rfl, rfl⟩

/-- An instance of the amended C19: an application error in the pretest makes
the run fail with score 0. -/
theorem runAction_verdict_witness :
    ∃ result, runAction testConfig pretestApplicationError
        = some { stdout := [result], exitError := false }
      ∧ result.Pass = false ∧ result.Score = 0 :=
  (runAction_verdict testConfig pretestApplicationError pretestApplicationError_setup).1
    (Or.inr (Or.inl (by decide)))

/-! ## `uniqueMsgs` -/

theorem uniqueMsgsLoop_eq (msgs dedup uniqMsgs : List String) :
    uniqueMsgsLoop msgs dedup uniqMsgs
      = uniqMsgs ++ (firstOccurrences msgs).filter (fun m => decide (m ∉ dedup)) := by
  induction msgs generalizing dedup uniqMsgs with
  | nil => simp [uniqueMsgsLoop, firstOccurrences]
  | cons msg rest ih =>
    by_cases h : msg ∈ dedup
    · rw [uniqueMsgsLoop, if_pos h, ih, firstOccurrences, List.filter_cons]
      simp only [h, not_true_eq_false, decide_False, Bool.false_eq_true, if_false,
        List.filter_filter]
      congr 1
      apply List.filter_congr
      intro m _
      by_cases hm : m ∈ dedup
      · simp [hm]
      · have : m ≠ msg := fun e => hm (e ▸ h)
        simp [hm, this]
    · rw [uniqueMsgsLoop, if_neg h, ih, firstOccurrences, List.filter_cons]
      simp only [h, not_false_eq_true, decide_True, if_true, List.filter_filter,
        List.append_assoc, List.singleton_append]
      congr 2
      apply List.filter_congr
      intro m _
      by_cases hm : m = msg
      · simp [hm]
      · simp [hm]

theorem uniqueMsgs_eq_firstOccurrences (msgs : List String) :
    uniqueMsgs msgs = firstOccurrences msgs := by
  simp [uniqueMsgs, uniqueMsgsLoop_eq]

theorem mem_firstOccurrences (msgs : List String) (m : String) :
    m ∈ firstOccurrences msgs ↔ m ∈ msgs := by
  induction msgs with
  | nil => simp [firstOccurrences]
  | cons msg rest ih =>
    by_cases hm : m = msg
    · simp [firstOccurrences, hm]
    · simp [firstOccurrences, hm, List.mem_filter, ih]

theorem nodup_firstOccurrences (msgs : List String) : (firstOccurrences msgs).Nodup := by
  induction msgs with
  | nil => simp [firstOccurrences]
  | cons msg rest ih =>
    rw [firstOccurrences, List.nodup_cons]
    exact ⟨by simp [List.mem_filter], ih.filter _⟩

theorem firstOccurrences_of_nodup (msgs : List String) (h : msgs.Nodup) :
    firstOccurrences msgs = msgs := by
  induction msgs with
  | nil => rfl
  | cons msg rest ih =>
    rw [List.nodup_cons] at h
    rw [firstOccurrences, ih h.2]
    congr 1
    rw [List.filter_eq_self]
    intro m hm
    have : m ≠ msg := fun e => h.1 (e ▸ hm)
    simp [this]

theorem firstOccurrences_ordered (msgs : List String) :
    (firstOccurrences msgs).Pairwise (fun x y => msgs.indexOf x < msgs.indexOf y) := by
  induction msgs with
  | nil => simp [firstOccurrences]
  | cons msg rest ih =>
    rw [firstOccurrences, List.pairwise_cons]
    constructor
    · intro y hy
      have hne : msg ≠ y := by
        intro e
        simp [List.mem_filter, e] at hy
      rw [List.indexOf_cons_self, List.indexOf_cons_ne _ hne]
      exact Nat.succ_pos _
    · apply List.Pairwise.imp_of_mem _ (ih.filter _)
      intro x y hx hy hxy
      have hx1 : msg ≠ x := by
        intro e
        simp [List.mem_filter, e] at hx
      have hy1 : msg ≠ y := by
        intro e
        simp [List.mem_filter, e] at hy
      rw [List.indexOf_cons_ne _ hx1, List.indexOf_cons_ne _ hy1]
      exact Nat.succ_lt_succ hxy

/-- C20: `uniqueMsgs` returns the deduplicated list of messages: the result has
no message twice, has exactly the messages of the input, keeps them in the
order of their first occurrences in the input, and `uniqueMsgs` applied to the
result gives the result again. -/
theorem uniqueMsgs_deduplicates (msgs : List String) :
    (uniqueMsgs msgs).Nodup
    ∧ (∀ m, m ∈ uniqueMsgs msgs ↔ m ∈ msgs)
    ∧ (uniqueMsgs msgs).Pairwise (fun x y => msgs.indexOf x < msgs.indexOf y)
    ∧ uniqueMsgs (uniqueMsgs msgs) = uniqueMsgs msgs := by
  rw [uniqueMsgs_eq_firstOccurrences msgs]
  refine ⟨nodup_firstOccurrences msgs, mem_firstOccurrences msgs,
    firstOccurrences_ordered msgs, ?_⟩
  rw [uniqueMsgs_eq_firstOccurrences]
  exact firstOccurrences_of_nodup _ (nodup_firstOccurrences msgs)

/-! ## The messages of the emitted results -/

/-- C21 as stated fails: the pretest records the same error twice, and the
result that the run emits carries the message twice. -/
theorem runAction_emits_duplicate_pretest_messages :
    runAction testConfig pretestDuplicateErrors
      = some { stdout := [{ Pass := false, Score := 0,
                            Messages := ["request failed", "request failed"],
                            AvailableDays := 30, Language := "golang" }],
               exitError := false }
    ∧ ¬ (["request failed", "request failed"] : List String).Nodup := by
  refine ⟨by decide, by decide⟩

/-- C21, amended: the messages of the Benchmark phase are emitted without
duplicates. When the setup succeeds and the Initialize and PreTest phases
record no error, the emitted result carries `uniqueMsgs` of the Benchmark
messages, which has no duplicates: alone when the Benchmark phase disqualifies,
followed by the FinalCheck messages as recorded when the FinalCheck phase
disqualifies, and followed by the three score lines on the passing path. -/
theorem runAction_benchmark_messages_deduplicated (cfg : Config) (w : ActionInputs)
    (hsetup : SetupSucceeds w) (hinit : IsError w.InitializeErrs = false)
    (hpre : IsError w.PreTestErrs = false) :
    (uniqueMsgs w.BenchmarkErrs.Msgs).Nodup
    ∧ (IsFailure w.BenchmarkErrs = true →
        ∃ result, runAction cfg w = some { stdout := [result], exitError := false }
          ∧ result.Messages = uniqueMsgs w.BenchmarkErrs.Msgs ∧ result.Messages.Nodup)
    ∧ (IsFailure w.BenchmarkErrs = false → IsFailure w.FinalCheckErrs = true →
        ∃ result, runAction cfg w = some { stdout := [result], exitError := false }
          ∧ result.Messages = uniqueMsgs w.BenchmarkErrs.Msgs ++ w.FinalCheckErrs.Msgs)
    ∧ (IsFailure w.BenchmarkErrs = false → IsFailure w.FinalCheckErrs = false →
        ∀ penalty, Penalty cfg w.BenchmarkErrs = some penalty →
          ∃ result, runAction cfg w = some { stdout := [result], exitError := false }
            ∧ result.Messages = uniqueMsgs w.BenchmarkErrs.Msgs
                ++ ["エンドポイント成功回数: " ++ toString w.finalEndpointCount,
                    "スコア: " ++ toString w.finalScore,
                    "ペナルティ: " ++ toString penalty]) := by
  obtain ⟨h1, h2, h3, h4, h5, h6, h7, h8⟩ := hsetup
  have hmock : (if w.Debug = true then w.mockRegisterErr else none) = none := by
    by_cases hdbg : w.Debug = true
    · rw [if_pos hdbg]; exact h6 hdbg
    · rw [if_neg hdbg]
  have hnodup : (uniqueMsgs w.BenchmarkErrs.Msgs).Nodup := by
    rw [uniqueMsgs_eq_firstOccurrences]
    exact nodup_firstOccurrences _
  refine ⟨hnodup, ?_, ?_, ?_⟩
  · intro hb
    refine ⟨dumpFailedResult cfg (uniqueMsgs w.BenchmarkErrs.Msgs), ?_, rfl, hnodup⟩
    unfold runAction
    simp only [h1, h2, h3, h4, h5, h7, h8, hmock, hinit, hpre, hb, Bool.false_eq_true,
      if_false, if_true, dumpFailedResult]
  · intro hb hf
    refine ⟨dumpFailedResult cfg (uniqueMsgs w.BenchmarkErrs.Msgs ++ w.FinalCheckErrs.Msgs),
      ?_, rfl⟩
    unfold runAction
    simp only [h1, h2, h3, h4, h5, h7, h8, hmock, hinit, hpre, hb, hf, Bool.false_eq_true,
      if_false, if_true, dumpFailedResult]
  · intro hb hf penalty hpen
    refine ⟨{ Pass := true, Score := subInt64 w.finalScore penalty,
              Messages := uniqueMsgs w.BenchmarkErrs.Msgs
                ++ ["エンドポイント成功回数: " ++ toString w.finalEndpointCount,
                    "スコア: " ++ toString w.finalScore,
                    "ペナルティ: " ++ toString penalty],
              AvailableDays := cfg.AvailableDays, Language := cfg.Language }, ?_, rfl⟩
    unfold runAction
    simp only [h1, h2, h3, h4, h5, h7, h8, hmock, hinit, hpre, hb, hf, hpen,
      Bool.false_eq_true, if_false, List.append_assoc, List.singleton_append,
      List.cons_append, List.nil_append]

/-- The setup of `benchmarkDuplicateErrors` succeeds. -/
theorem benchmarkDuplicateErrors_setup : SetupSucceeds benchmarkDuplicateErrors :=
  ⟨rfl, rfl, rfl, rfl, rfl, fun _ => rfl, rfl, rfl⟩

/-- An instance of the amended C21: the benchmark records the same critical
error twice and the emitted result carries its message once. -/
theorem runAction_benchmark_messages_deduplicated_witness :
    ∃ result, runAction testConfig benchmarkDuplicateErrors
        = some { stdout := [result], exitError := false }
      ∧ result.Messages = uniqueMsgs benchmarkDuplicateErrors.BenchmarkErrs.Msgs
      ∧ result.Messages.Nodup :=
  (runAction_benchmark_messages_deduplicated testConfig benchmarkDuplicateErrors
    benchmarkDuplicateErrors_setup (by decide) (by decide)).2.1 (by decide)

/-! ## The load scheduler -/

/-- The weight held by the semaphore is the number of load units in flight, and
it is at most the size. -/
theorem schedulerStep_invariant (b : benchmarker) (event : SchedulerEvent)
    (hcur : b.sem.cur = b.inFlight) (hle : b.sem.cur ≤ b.sem.size) :
    ∃ b1, schedulerStep b event = some b1 ∧ b1.sem.cur = b1.inFlight
      ∧ b1.sem.cur ≤ b1.sem.size ∧ b1.sem.size = b.sem.size := by
  cases event with
  | iterate ctxDone isFailure =>
    unfold schedulerStep
    by_cases hl : b.looping = true
    · cases ctxDone with
      | true =>
        exact ⟨({ b with looping := false } : benchmarker), by simp [hl], hcur, hle, rfl⟩
      | false =>
        cases isFailure with
        | true =>
          exact ⟨({ b with looping := false } : benchmarker), by simp [hl], hcur, hle, rfl⟩
        | false =>
          by_cases hfree : b.sem.cur + 1 ≤ b.sem.size
          · refine ⟨benchmarker.mk (Weighted.mk b.sem.size (b.sem.cur + 1)) (b.inFlight + 1)
              b.looping, ?_, ?_, ?_, rfl⟩
            · simp [hl, Weighted.TryAcquire, hfree]
            · simp [hcur]
            · exact hfree
          · exact ⟨b, by simp [hl, Weighted.TryAcquire, hfree], hcur, hle, rfl⟩
    · exact ⟨b, by simp [hl], hcur, hle, rfl⟩
  | loadDone =>
    unfold schedulerStep
    by_cases h0 : b.inFlight = 0
    · exact ⟨b, by simp [h0], hcur, hle, rfl⟩
    · have hpos : ¬ b.sem.cur < 1 := by omega
      refine ⟨benchmarker.mk (Weighted.mk b.sem.size (b.sem.cur - 1)) (b.inFlight - 1)
        b.looping, ?_, ?_, ?_, rfl⟩
      · simp [h0, Weighted.Release, hpos]
      · simp [hcur]
      · show b.sem.cur - 1 ≤ b.sem.size
        omega

theorem schedulerRun_invariant (events : List SchedulerEvent) (b : benchmarker)
    (hcur : b.sem.cur = b.inFlight) (hle : b.sem.cur ≤ b.sem.size) :
    ∃ b1, schedulerRun b events = some b1 ∧ b1.sem.cur = b1.inFlight
      ∧ b1.sem.cur ≤ b1.sem.size ∧ b1.sem.size = b.sem.size := by
  induction events generalizing b with
  | nil => exact ⟨b, rfl, hcur, hle, rfl⟩
  | cons event rest ih =>
    obtain ⟨b1, hstep, h1, h2, h3⟩ := schedulerStep_invariant b event hcur hle
    obtain ⟨b2, hrun, h4, h5, h6⟩ := ih b1 h1 h2
    exact ⟨b2, by simp [schedulerRun, hstep, hrun], h4, h5, h6.trans h3⟩

/-- C25: while the scheduler runs, the number of load units in flight never
exceeds the total weight of the limiter, the month number of the reservation
end date. After every sequence of loop iterations and load-unit ends nothing
has panicked, the load units in flight are as many as the weight held by the
semaphore (one unit acquired per launch, one released per end), and they are at
most the total weight. -/
theorem schedulerRun_in_flight_le_weight (month : Nat) (events : List SchedulerEvent) :
    ∃ b, schedulerRun (newBenchmarker month) events = some b
      ∧ b.inFlight ≤ month ∧ b.sem.cur = b.inFlight ∧ b.sem.size = month := by
  obtain ⟨b, hrun, h1, h2, h3⟩ :=
    schedulerRun_invariant events (newBenchmarker month) rfl (Nat.zero_le _)
  refine ⟨b, hrun, ?_, h1, h3⟩
  have : b.sem.size = month := h3
  omega

end Bench

/-! # Properties of the race-condition scenario -/

namespace Scenario

open Bencherror

theorem foldl_successCount (reserveFails : Nat → Bool) (l : List Nat) (acc : Nat)
    (h : acc + l.length < 2 ^ 64) :
    l.foldl (fun successCount i => if reserveFails i then successCount
        else (successCount + 1) % 2 ^ 64) acc
      = acc + (l.filter (fun i => !reserveFails i)).length := by
  induction l generalizing acc with
  | nil => simp
  | cons i rest ih =>
    simp only [List.length_cons] at h
    cases hi : reserveFails i with
    | true =>
      simp only [List.foldl_cons, hi, if_true, List.filter_cons, Bool.not_true,
        Bool.false_eq_true, if_false]
      exact ih acc (by omega)
    | false =>
      have hm : (acc + 1) % 2 ^ 64 = acc + 1 := Nat.mod_eq_of_lt (by omega)
      simp only [List.foldl_cons, hi, Bool.false_eq_true, if_false, List.filter_cons,
        Bool.not_false, if_true, List.length_cons, hm]
      rw [ih (acc + 1) (by omega)]
      omega

/-- The counter `successCount` is the number of the ten calls of `Reserve` that
return no error. -/
theorem reserveSuccessCount_eq (reserveFails : Nat → Bool) :
    reserveSuccessCount reserveFails
      = ((List.range 10).filter (fun i => !reserveFails i)).length := by
  unfold reserveSuccessCount
  rw [foldl_successCount reserveFails (List.range 10) 0 (by simp)]
  simp

/-- C22 as stated fails: on a Benchmark counter set that `DumpCounters` has
finalized, which `benchmarker.run` does while load units may still be running,
`AddError` adds nothing: with zero successes no Application error is added, and
with ten successes no Critical error is added. -/
theorem raceConditionVerdict_adds_nothing_when_finalized :
    (DumpCounters NewBenchErrors).isBenchmarkFinished = true
    ∧ reserveSuccessCount (fun _ => true) = 0
    ∧ raceConditionVerdict NewSimpleApplicationError NewSimpleCriticalError
        (DumpCounters NewBenchErrors) (fun _ => true) = (DumpCounters NewBenchErrors, none)
    ∧ (raceConditionVerdict NewSimpleApplicationError NewSimpleCriticalError
        (DumpCounters NewBenchErrors) (fun _ => true)).1.applicationCnt = 0
    ∧ (raceConditionVerdict NewSimpleApplicationError NewSimpleCriticalError
        (DumpCounters NewBenchErrors) (fun _ => true)).1.Msgs = []
    ∧ reserveSuccessCount (fun _ => false) = 10
    ∧ raceConditionVerdict NewSimpleApplicationError NewSimpleCriticalError
        (DumpCounters NewBenchErrors) (fun _ => false) = (DumpCounters NewBenchErrors, none)
    ∧ (raceConditionVerdict NewSimpleApplicationError NewSimpleCriticalError
        (DumpCounters NewBenchErrors) (fun _ => false)).1.criticalCnt = 0 := by
  decide

/-- C22, amended: in the race-condition scenario the classification of the ten
concurrent reservation attempts depends only on the number of successes. On a
Benchmark counter set that is not finalized, zero successes add an Application
error, more than one success adds a Critical error ("多重発券されました",
multiple issuance), and exactly one success adds no error. The error
constructors build errors of the class that they name. -/
theorem raceConditionVerdict_classification
    (mkApplication mkCritical : String → GoError) (errs : BenchErrors)
    (reserveFails : Nat → Bool)
    (hopen : errs.isBenchmarkFinished = false)
    (happ : ∀ msg, (mkApplication msg).extractCode = some (msg, errCode.errApplication))
    (hcrit : ∀ msg, (mkCritical msg).extractCode = some (msg, errCode.errCritical)) :
    (((List.range 10).filter (fun i => !reserveFails i)).length = 0 →
      (raceConditionVerdict mkApplication mkCritical errs reserveFails).1.applicationCnt
          = (errs.applicationCnt + 1) % 2 ^ 64
      ∧ (raceConditionVerdict mkApplication mkCritical errs reserveFails).1.criticalCnt
          = errs.criticalCnt
      ∧ (raceConditionVerdict mkApplication mkCritical errs reserveFails).1.Msgs
          = errs.Msgs ++ ["予約できませんでした"])
    ∧ (((List.range 10).filter (fun i => !reserveFails i)).length > 1 →
      (raceConditionVerdict mkApplication mkCritical errs reserveFails).1.criticalCnt
          = (errs.criticalCnt + 1) % 2 ^ 64
      ∧ (raceConditionVerdict mkApplication mkCritical errs reserveFails).1.applicationCnt
          = errs.applicationCnt
      ∧ (raceConditionVerdict mkApplication mkCritical errs reserveFails).1.Msgs
          = errs.Msgs ++ ["多重発券されました (critical error)"])
    ∧ (((List.range 10).filter (fun i => !reserveFails i)).length = 1 →
      raceConditionVerdict mkApplication mkCritical errs reserveFails = (errs, none))
    ∧ (∀ other : Nat → Bool,
      ((List.range 10).filter (fun i => !other i)).length
          = ((List.range 10).filter (fun i => !reserveFails i)).length →
        raceConditionVerdict mkApplication mkCritical errs other
          = raceConditionVerdict mkApplication mkCritical errs reserveFails) := by
  refine ⟨?_, ?_, ?_, ?_⟩
  · intro h0
    have hc : reserveSuccessCount reserveFails = 0 := by rw [reserveSuccessCount_eq, h0]
    simp [raceConditionVerdict, hc, AddError, hopen, happ]
  · intro h1
    have hc : reserveSuccessCount reserveFails
        = ((List.range 10).filter (fun i => !reserveFails i)).length :=
      reserveSuccessCount_eq reserveFails
    have hne : ¬ reserveSuccessCount reserveFails = 0 := by omega
    have hgt : reserveSuccessCount reserveFails > 1 := by omega
    simp [raceConditionVerdict, hne, hgt, AddError, hopen, hcrit]
  · intro h1
    have hc : reserveSuccessCount reserveFails = 1 := by rw [reserveSuccessCount_eq, h1]
    simp [raceConditionVerdict, hc]
  · intro other hsame
    have hc : reserveSuccessCount other = reserveSuccessCount reserveFails := by
      rw [reserveSuccessCount_eq, reserveSuccessCount_eq, hsame]
    simp [raceConditionVerdict, hc]

/-- Instances of the amended C22 on the empty counter set: no success, ten
successes, and the single success of the goroutine 3. -/
theorem raceConditionVerdict_classification_witness :
    (raceConditionVerdict NewSimpleApplicationError NewSimpleCriticalError NewBenchErrors
        (fun _ => true)).1.applicationCnt = (NewBenchErrors.applicationCnt + 1) % 2 ^ 64
    ∧ (raceConditionVerdict NewSimpleApplicationError NewSimpleCriticalError NewBenchErrors
        (fun _ => false)).1.criticalCnt = (NewBenchErrors.criticalCnt + 1) % 2 ^ 64
    ∧ raceConditionVerdict NewSimpleApplicationError NewSimpleCriticalError NewBenchErrors
        (fun i => decide (i ≠ 3)) = (NewBenchErrors, none) :=
  ⟨((raceConditionVerdict_classification NewSimpleApplicationError NewSimpleCriticalError
      NewBenchErrors (fun _ => true) rfl (fun _ => rfl) (fun _ => rfl)).1 (by decide)).1,
   ((raceConditionVerdict_classification NewSimpleApplicationError NewSimpleCriticalError
      NewBenchErrors (fun _ => false) rfl (fun _ => rfl) (fun _ => rfl)).2.1 (by decide)).1,
   (raceConditionVerdict_classification NewSimpleApplicationError NewSimpleCriticalError
      NewBenchErrors (fun i => decide (i ≠ 3)) rfl (fun _ => rfl) (fun _ => rfl)).2.2.1
      (by decide)⟩

end Scenario

/-! # Properties of the worker -/

namespace Benchworker

/-- When `json.Unmarshal` fails, as on an empty output, `execBench` returns a
result with the status "aborted", not passed, and the fixed reason. -/
theorem execBench_of_unmarshal_error (jobID messageLimit : Int) (run : ChildRun)
    (text : String) (h : run.unmarshal = .error text) :
    execBench jobID none messageLimit run
      = .result { ID := jobID, Stdout := run.stdout, Stderr := run.stderr,
                  Reason := "ベンチ結果の取得に失敗しました. 運営に報告してください",
                  IsPassed := false, Score := -1, Status := "aborted" } := by
  simp [execBench, h, StatusFailed]

/-- When the output is a result object and the message limit is not negative,
`execBench` returns a result, whose status is "aborted" if the child timed out
or failed. -/
theorem execBench_of_result (jobID messageLimit : Int) (run : ChildRun)
    (result : BenchResult) (h : run.unmarshal = .ok (some result))
    (hlimit : 0 ≤ messageLimit) :
    ∃ r, execBench jobID none messageLimit run = .result r
      ∧ (run.outcome ≠ .exited false → r.Status = "aborted")
      ∧ (run.outcome = .exited false → r.Status = "done") := by
  have hjoin : ∃ reason, joinN result.Messages messageLimit = some reason := by
    unfold joinN
    by_cases hlen : (result.Messages.length : Int) > messageLimit
    · rw [if_pos hlen, if_neg (by omega)]
      exact ⟨_, rfl⟩
    · rw [if_neg hlen]
      exact ⟨_, rfl⟩
  obtain ⟨reason, hreason⟩ := hjoin
  have hexec : execBench jobID none messageLimit run
      = .result { ID := jobID, Stdout := run.stdout, Stderr := run.stderr, Reason := reason,
                  IsPassed := result.Pass, Score := result.Score,
                  Status :=
                    match run.outcome with
                    | .exited failed => if failed then StatusFailed else StatusSuccess
                    | .timedOut => StatusTimeout } := by
    simp only [execBench, h, hreason]
  refine ⟨_, hexec, ?_, ?_⟩
  · intro hout
    cases ho : run.outcome with
    | timedOut => simp [StatusTimeout]
    | exited failed =>
      cases failed with
      | true => simp [StatusFailed]
      | false => exact absurd ho hout
  · intro hout
    simp [hout, StatusSuccess]

/-- C23 fails on the code: the child exits with status 0 after writing the JSON
value `null`; `json.Unmarshal` returns no error and leaves the pointer `result`
nil, and `execBench` panics on `result.Messages` instead of returning a result
with the status "aborted". -/
theorem execBench_panics_on_null_output :
    nullOutput.stdout = "null"
    ∧ execBench 1 none 10 nullOutput = ExecOutcome.panic
    ∧ ∀ r, execBench 1 none 10 nullOutput ≠ ExecOutcome.result r := by
  refine ⟨rfl, rfl, ?_⟩
  intro r h
  have : execBench 1 none 10 nullOutput = ExecOutcome.panic := rfl
  rw [this] at h
  cases h

end Benchworker

/-! # Properties of `Amount`, and the admission check after `Commit` and `Cancel` -/

namespace Isutrain

theorem wrapInt_of_fits (x : Int) (hlo : -(2 ^ 63) ≤ x) (hhi : x < 2 ^ 63) :
    wrapInt x = x := by
  unfold wrapInt Bencherror.toInt64
  have hlt : (x % 2 ^ 64).toNat < 2 ^ 64 := by omega
  rw [Nat.mod_eq_of_lt hlt]
  by_cases hneg : x < 0
  · have hge : ¬ (x % 2 ^ 64).toNat < 2 ^ 63 := by omega
    rw [if_neg hge]
    omega
  · have hlt2 : (x % 2 ^ 64).toNat < 2 ^ 63 := by omega
    rw [if_pos hlt2]
    omega

/-- C24 as stated fails: with a fare of 4321, one adult and two children,
`Amount` is 8642 = 4321 + ⌊(2 × 4321) / 2⌋, and the claimed value is
8641 = 4321 + 2 × ⌊4321 / 2⌋. -/
theorem Amount_halves_the_children_total :
    testGetFare familyEntry.ID familyEntry.Date familyEntry.Departure familyEntry.Arrival
        familyEntry.TrainClass familyEntry.SeatClass = .ok 4321
    ∧ Amount testGetFare familyEntry = (8642, none)
    ∧ familyEntry.Adult * 4321 + familyEntry.Child * (4321 / 2) = 8641 := by
  refine ⟨rfl, by decide, by decide⟩

/-- C24, amended: the children together are charged half of their total fare,
rounded down: for a record with adult count a ≥ 0, child count c ≥ 0 and a fare
f ≥ 0 returned by `GetFare`, `Amount` is a × f + ⌊(c × f) / 2⌋ when the total
a × f + c × f fits a Go `int`. -/
theorem Amount_eq (GetFare : Int → Time → String → String → String → String → Except Error Int)
    (r : ReservationCacheEntry) (fare : Int)
    (hfare : GetFare r.ID r.Date r.Departure r.Arrival r.TrainClass r.SeatClass = .ok fare)
    (hf : 0 ≤ fare) (ha : 0 ≤ r.Adult) (hc : 0 ≤ r.Child)
    (hfit : r.Adult * fare + r.Child * fare < 2 ^ 63) :
    Amount GetFare r = (r.Adult * fare + (r.Child * fare) / 2, none) := by
  have h1 : 0 ≤ fare * r.Adult := Int.mul_nonneg hf ha
  have h2 : 0 ≤ fare * r.Child := Int.mul_nonneg hf hc
  have e1 : r.Adult * fare = fare * r.Adult := Int.mul_comm _ _
  have e2 : r.Child * fare = fare * r.Child := Int.mul_comm _ _
  rw [e1, e2] at hfit ⊢
  have w1 : wrapInt (fare * r.Adult) = fare * r.Adult :=
    wrapInt_of_fits _ (by omega) (by omega)
  have w2 : wrapInt (fare * r.Child) = fare * r.Child :=
    wrapInt_of_fits _ (by omega) (by omega)
  have hdiv : Int.tdiv (fare * r.Child) 2 = (fare * r.Child) / 2 :=
    Int.tdiv_eq_ediv h2 (by decide)
  have h3 : 0 ≤ (fare * r.Child) / 2 := Int.ediv_nonneg h2 (by decide)
  have h4 : (fare * r.Child) / 2 ≤ fare * r.Child := Int.ediv_le_self _ h2
  have w3 : wrapInt (fare * r.Adult + (fare * r.Child) / 2)
      = fare * r.Adult + (fare * r.Child) / 2 :=
    wrapInt_of_fits _ (by omega) (by omega)
  simp only [Amount, hfare, w1, w2, hdiv, w3]

/-- An instance of the amended C24: one adult and two children at 4321. -/
theorem Amount_eq_witness :
    Amount testGetFare familyEntry
      = (familyEntry.Adult * 4321 + (familyEntry.Child * 4321) / 2, none) :=
  Amount_eq testGetFare familyEntry 4321 rfl (by decide) (by decide) (by decide) (by decide)

theorem Commit_reservations (r : reservationCache) (reservationID : Int) :
    (Commit r reservationID).1.reservations = r.reservations := by
  unfold Commit
  split <;> rfl

theorem Cancel_reservations (r : reservationCache) (reservationID : Int) :
    (Cancel r reservationID).1.reservations = r.reservations := by
  unfold Cancel
  split
  · rfl
  · simp only
    split <;> rfl

/-- C26: `Commit` and `Cancel` do not change the answer of the admission check:
for every ledger, identifier and request `CanReserve` returns the same result
before and after `Commit` and before and after `Cancel`; in particular the
record of the tests, once canceled, still blocks a request for its seat. -/
theorem CanReserve_after_Commit_Cancel (env : Env) (r : reservationCache)
    (reservationID : Int) (req : ReserveRequest) :
    CanReserve env (Commit r reservationID).1 req = CanReserve env r req
    ∧ CanReserve env (Cancel r reservationID).1 req = CanReserve env r req
    ∧ CanReserve testEnv (Cancel (testLedger "古岡" "荒川") 10).1
        (testRequest "2020-01-01T10:01:00Z" "古岡" "荒川") = (false, none) := by
  refine ⟨?_, ?_, by decide⟩
  · unfold CanReserve
    rw [Commit_reservations]
  · unfold CanReserve
    rw [Cancel_reservations]

end Isutrain
